import Mathlib

/-!
Transfer orchestration of croc (`src/files.go`)

A shallow embedding of the three orchestration routines of `src/files.go`:
`processFile`, `getFilesReady` and `processReceivedFile`.

* The session record (`c.cs.channel`) and the `Croc` receiver are plain
  structures; every routine is a state transformer over `Sys`.
* Every collaborator that `files.go` calls but does not define (`zipFile`,
  `hashFile`, `encryptFile`, `splitFile`, `catFiles`, `os.Remove`, the
  websocket, the PAKE object, ...) is a field of `Env`.  The routines are
  parametric in `Env`; theorems state what they need of it as hypotheses.
* Each call on a collaborator is appended to `Sys.trace`, with its arguments
  and its outcome, so that "is called", "is never called" and "is the last
  action" are statements about a list.
* `go` statements are recorded as `Event.go`; the body of the goroutine is a
  separate step (`Task.run`).
* The mutex `c.cs` is not modelled as an object.  The routines run without
  interleaving except in the polling loop of `getFilesReady`, which releases
  the lock between polls: there an arbitrary `Interference` acts on the
  shared state.
-/

set_option linter.unusedTactic false
set_option linter.unreachableTactic false
set_option linter.unnecessarySeqFocus false

namespace Files

/-! ## Data model -/

abbrev Bytes := List Nat

abbrev Error := String

deriving instance DecidableEq for Except

/-- A file system: an association list from paths to contents. -/
abbrev FS := List (String × Bytes)

/-- Content of the file at `p`, if there is one. -/
def FS.read (fs : FS) (p : String) : Option Bytes :=
  (fs.find? fun e => e.1 == p).map Prod.snd

/-- The struct `FileMetaData`, with the fields `files.go` uses. -/
structure FileMetaData where
  Name : String := ""
  Size : Int := 0
  Hash : String := ""
  IsDir : Bool := false
  IsCompressed : Bool := false
  IsEncrypted : Bool := false
  DeleteAfterSending : Bool := false
  deriving DecidableEq, Repr

/-- The key-exchange object `c.cs.channel.Pake`: only `SessionKey` is called
on it, so it is represented by the key it holds, if any. -/
abbrev Pake := Option Bytes

/-- The record `c.cs.channel`, with the fields `files.go` uses. -/
structure channelData where
  Ports : List String := []
  Pake : Pake := none
  codePhrase : String := ""
  fileMetaData : FileMetaData := {}
  EncryptedFileMetaData : Bytes := []
  notSentMetaData : Bool := false
  fileReady : Bool := false
  FileReceived : Bool := false
  finishedHappy : Bool := false
  Update : Bool := false
  deriving DecidableEq, Repr

/-- The receiver `c *Croc`; `channel` stands for `c.cs.channel`. -/
structure Croc where
  UseCompression : Bool := false
  UseEncryption : Bool := false
  crocFile : String := ""
  crocFileEncrypted : String := ""
  channel : channelData := {}
  deriving DecidableEq, Repr

/-- The two goroutines started by `files.go`. -/
inductive Task where
  /-- `go showIntro(c.cs.channel.codePhrase, fd)` -/
  | showIntro (codePhrase : String) (fd : FileMetaData)
  /-- `go func() { c.cs.Lock(); c.cs.channel.fileReady = true; c.cs.Unlock() }()` -/
  | setFileReady
  deriving DecidableEq, Repr

/-- One call on a collaborator, with its arguments and what it returned.
`unzipFile` also records the content of the file it is handed, and `go` the
session record at the moment the goroutine is started. -/
inductive Event where
  | TempFile (dir pfx name : String) (err : Option Error)
  | Copy (name : String) (data : Bytes) (err : Option Error)
  | Close (name : String) (err : Option Error)
  | exists_ (p : String) (res : Bool)
  | Stat (p : String) (isDir : Bool) (err : Option Error)
  | zipFile (p : String) (compress : Bool) (out : String) (err : Option Error)
  | hashFile (p : String) (hash : String) (err : Option Error)
  | fileSize (p : String) (size : Int) (err : Option Error)
  | SessionKey (key : Bytes) (err : Option Error)
  | tempFileName (pfx name : String)
  | encryptFile (src dst : String) (key : Bytes) (err : Option Error)
  | decryptFile (src dst : String) (key : Bytes) (err : Option Error)
  | Remove (p : String) (err : Option Error)
  | splitFile (p : String) (n : Nat) (err : Option Error)
  | catFiles (paths : List String) (out : String) (del : Bool) (err : Option Error)
  | unzipFile (p dest : String) (content : Option Bytes) (err : Option Error)
  | Marshal (fd : FileMetaData) (err : Option Error)
  | WriteJSON (snapshot : channelData) (err : Option Error)
  | go (t : Task) (now : channelData)
  deriving DecidableEq, Repr

/-- The error a call returned, if it returned one. -/
def Event.err? : Event → Option Error
  | .TempFile _ _ _ e => e
  | .Copy _ _ e => e
  | .Close _ e => e
  | .exists_ _ _ => none
  | .Stat _ _ e => e
  | .zipFile _ _ _ e => e
  | .hashFile _ _ e => e
  | .fileSize _ _ e => e
  | .SessionKey _ e => e
  | .tempFileName _ _ => none
  | .encryptFile _ _ _ e => e
  | .decryptFile _ _ _ e => e
  | .Remove _ e => e
  | .splitFile _ _ e => e
  | .catFiles _ _ _ e => e
  | .unzipFile _ _ _ e => e
  | .Marshal _ e => e
  | .WriteJSON _ e => e
  | .go _ _ => none

def Event.isWriteJSON : Event → Bool
  | .WriteJSON _ _ => true
  | _ => false

def Event.isGo : Event → Bool
  | .go _ _ => true
  | _ => false

def Event.isUnzipFile : Event → Bool
  | .unzipFile _ _ _ _ => true
  | _ => false

def Event.isRemove : Event → Bool
  | .Remove _ _ => true
  | _ => false

def Event.isCatFiles : Event → Bool
  | .catFiles _ _ _ _ => true
  | _ => false

def Event.isSplitFile : Event → Bool
  | .splitFile _ _ _ => true
  | _ => false

/-- The collaborators of `files.go`.  A call that can touch the disk takes
the file system and returns the new one next to its Go results; like a Go
function, a call returns a value and an error side by side. -/
structure Env where
  /-- `ioutil.TempFile(dir, pfx)`, returning `f.Name()` -/
  TempFile : FS → String → String → (String × Option Error) × FS
  /-- `io.Copy(f, os.Stdin)` for the file named `name` -/
  Copy : FS → String → Bytes → Option Error × FS
  /-- `f.Close()` -/
  Close : FS → String → Option Error × FS
  /-- `exists(src)` -/
  exists_ : FS → String → Bool
  /-- `filepath.Split(filepath.Clean(src))` -/
  SplitClean : String → String × String
  /-- `path.Join(dir, name)` -/
  Join : String → String → String
  /-- `os.Stat(p)`, returning `info.Mode().IsDir()` -/
  Stat : FS → String → Bool × Option Error
  zipFile : FS → String → Bool → (String × Option Error) × FS
  hashFile : FS → String → String × Option Error
  fileSize : FS → String → Int × Option Error
  /-- `c.cs.channel.Pake.SessionKey()` -/
  SessionKey : Pake → Bytes × Option Error
  tempFileName : FS → String → String × FS
  encryptFile : FS → String → String → Bytes → Option Error × FS
  decryptFile : FS → String → String → Bytes → Option Error × FS
  /-- `os.Remove(p)` -/
  Remove : FS → String → Option Error × FS
  splitFile : FS → String → Nat → Option Error × FS
  catFiles : FS → List String → String → Bool → Option Error × FS
  unzipFile : FS → String → String → Option Error × FS
  /-- `json.Marshal(c.cs.channel.fileMetaData)` -/
  Marshal : FileMetaData → Bytes × Option Error
  encrypt : Bytes → Bytes → Bytes
  /-- `c.cs.channel.ws.WriteJSON(c.cs.channel)` -/
  WriteJSON : channelData → Option Error

/-- Everything a routine can read or change: the receiver, the disk, what is
left on standard input, and the log of calls made so far. -/
structure Sys where
  c : Croc
  fs : FS
  stdin : Bytes := []
  trace : List Event := []
  deriving DecidableEq

/-- A routine that returns `err error` (and possibly a value). -/
def Prog (α : Type) : Type := Sys → Except Error α × Sys

def Prog.pure {α : Type} (a : α) : Prog α := fun s => (.ok a, s)

def Prog.bind {α β : Type} (m : Prog α) (f : α → Prog β) : Prog β := fun s =>
  match m s with
  | (.ok a, s1) => f a s1
  | (.error e, s1) => (.error e, s1)

instance : Monad Prog where
  pure := Prog.pure
  bind := Prog.bind

/-- The statement `if err != nil { return }` (with `err` the named result). -/
def check (err : Option Error) : Prog Unit := fun s =>
  match err with
  | none => (.ok (), s)
  | some e => (.error e, s)

def getSys : Prog Sys := fun s => (.ok s, s)

def emit (ev : Event) : Prog Unit := fun s =>
  (.ok (), { s with trace := s.trace ++ [ev] })

def setFS (fs : FS) : Prog Unit := fun s => (.ok (), { s with fs := fs })

def modifyCroc (f : Croc → Croc) : Prog Unit := fun s => (.ok (), { s with c := f s.c })

def modifyChannel (f : channelData → channelData) : Prog Unit :=
  modifyCroc fun c => { c with channel := f c.channel }


def getCroc : Prog Croc := fun s => (.ok s.c, s)

/-! ## Calls on the collaborators

Each wrapper performs the call on the current file system, stores the new
file system, logs the call, and hands back the Go results. -/

def TempFile (E : Env) (dir pfx : String) : Prog (String × Option Error) := fun s =>
  let r := E.TempFile s.fs dir pfx
  (.ok r.1, { s with fs := r.2, trace := s.trace ++ [.TempFile dir pfx r.1.1 r.1.2] })

/-- `io.Copy(f, os.Stdin)`: standard input is read to its end. -/
def Copy (E : Env) (name : String) : Prog (Option Error) := fun s =>
  let r := E.Copy s.fs name s.stdin
  (.ok r.1, { s with fs := r.2, stdin := [], trace := s.trace ++ [.Copy name s.stdin r.1] })

def Close (E : Env) (name : String) : Prog (Option Error) := fun s =>
  let r := E.Close s.fs name
  (.ok r.1, { s with fs := r.2, trace := s.trace ++ [.Close name r.1] })

def exists_ (E : Env) (p : String) : Prog Bool := fun s =>
  let r := E.exists_ s.fs p
  (.ok r, { s with trace := s.trace ++ [.exists_ p r] })

def Stat (E : Env) (p : String) : Prog (Bool × Option Error) := fun s =>
  let r := E.Stat s.fs p
  (.ok r, { s with trace := s.trace ++ [.Stat p r.1 r.2] })

def zipFile (E : Env) (p : String) (compress : Bool) : Prog (String × Option Error) := fun s =>
  let r := E.zipFile s.fs p compress
  (.ok r.1, { s with fs := r.2, trace := s.trace ++ [.zipFile p compress r.1.1 r.1.2] })

def hashFile (E : Env) (p : String) : Prog (String × Option Error) := fun s =>
  let r := E.hashFile s.fs p
  (.ok r, { s with trace := s.trace ++ [.hashFile p r.1 r.2] })

def fileSize (E : Env) (p : String) : Prog (Int × Option Error) := fun s =>
  let r := E.fileSize s.fs p
  (.ok r, { s with trace := s.trace ++ [.fileSize p r.1 r.2] })

def SessionKey (E : Env) : Prog (Bytes × Option Error) := fun s =>
  let r := E.SessionKey s.c.channel.Pake
  (.ok r, { s with trace := s.trace ++ [.SessionKey r.1 r.2] })

def tempFileName (E : Env) (pfx : String) : Prog String := fun s =>
  let r := E.tempFileName s.fs pfx
  (.ok r.1, { s with fs := r.2, trace := s.trace ++ [.tempFileName pfx r.1] })

def encryptFile (E : Env) (src dst : String) (key : Bytes) : Prog (Option Error) := fun s =>
  let r := E.encryptFile s.fs src dst key
  (.ok r.1, { s with fs := r.2, trace := s.trace ++ [.encryptFile src dst key r.1] })

def decryptFile (E : Env) (src dst : String) (key : Bytes) : Prog (Option Error) := fun s =>
  let r := E.decryptFile s.fs src dst key
  (.ok r.1, { s with fs := r.2, trace := s.trace ++ [.decryptFile src dst key r.1] })

def Remove (E : Env) (p : String) : Prog (Option Error) := fun s =>
  let r := E.Remove s.fs p
  (.ok r.1, { s with fs := r.2, trace := s.trace ++ [.Remove p r.1] })

def splitFile (E : Env) (p : String) (n : Nat) : Prog (Option Error) := fun s =>
  let r := E.splitFile s.fs p n
  (.ok r.1, { s with fs := r.2, trace := s.trace ++ [.splitFile p n r.1] })

def catFiles (E : Env) (paths : List String) (out : String) (del : Bool) :
    Prog (Option Error) := fun s =>
  let r := E.catFiles s.fs paths out del
  (.ok r.1, { s with fs := r.2, trace := s.trace ++ [.catFiles paths out del r.1] })

def unzipFile (E : Env) (p dest : String) : Prog (Option Error) := fun s =>
  let r := E.unzipFile s.fs p dest
  (.ok r.1, { s with fs := r.2, trace := s.trace ++ [.unzipFile p dest (s.fs.read p) r.1] })

def Marshal (E : Env) (fd : FileMetaData) : Prog (Bytes × Option Error) := fun s =>
  let r := E.Marshal fd
  (.ok r, { s with trace := s.trace ++ [.Marshal fd r.2] })

/-- `errWrite := c.cs.channel.ws.WriteJSON(c.cs.channel)` -/
def WriteJSON (E : Env) : Prog (Option Error) := fun s =>
  let r := E.WriteJSON s.c.channel
  (.ok r, { s with trace := s.trace ++ [.WriteJSON s.c.channel r] })

/-- A `go` statement: the goroutine is only started here. -/
def goTask (t : Task) : Prog Unit := fun s =>
  (.ok (), { s with trace := s.trace ++ [.go t s.c.channel] })

/-- The body of a goroutine, run as a step of its own. -/
def Task.run : Task → Croc → Croc
  | .showIntro _ _, c => c
  | .setFileReady, c => { c with channel := { c.channel with fileReady := true } }

/-! ## `processFile` (lines 17-91) -/

/-- Lines 27-53: the internal path, the file name and the metadata so far. -/
def processFileSource (E : Env) (src : String) (fd : FileMetaData) :
    Prog (String × String × FileMetaData) := do
  if src = "stdin" then
    let (f, err) ← TempFile E "." "croc-stdin-"
    check err
    let err ← Copy E f
    check err
    let pathToFile := "."
    let filename := f
    let err ← Close E f
    check err
    pure (pathToFile, filename, { fd with Name := filename, DeleteAfterSending := true })
  else
    let ok ← exists_ E src
    if !ok then
      check (some ("file/folder \x27" ++ src ++ "\x27 does not exist"))
    let (pathToFile, filename) := E.SplitClean src
    pure (pathToFile, filename, { fd with Name := filename })

def processFile (E : Env) (src : String) : Prog Unit := do
  let fd : FileMetaData := {}
  let (pathToFile, filename, fd) ← processFileSource E src fd
  -- check wether the file is a dir
  let (isDir, err) ← Stat E (E.Join pathToFile filename)
  check err
  let fd := { fd with IsDir := isDir }
  -- zip file
  let c ← getCroc
  let (out, err) ← zipFile E (E.Join pathToFile filename) c.UseCompression
  modifyCroc fun c => { c with crocFile := out }
  check err
  let fd := { fd with IsCompressed := c.UseCompression, IsEncrypted := c.UseEncryption }
  let (hash, err) ← hashFile E out
  check err
  let fd := { fd with Hash := hash }
  let (size, err) ← fileSize E out
  check (err.map fun e => "could not determine filesize: " ++ e)
  let fd := { fd with Size := size }
  modifyChannel fun ch => { ch with fileMetaData := fd }
  let ch ← getCroc
  goTask (.showIntro ch.channel.codePhrase fd)

/-! ## `getFilesReady` (lines 93-171) -/

/-- What the other goroutines do to the receiver and the disk while the
polling loop has released the lock, at each poll. -/
abbrev Interference := Nat → Croc × FS → Croc × FS

/-- No other goroutine is running. -/
def Interference.idle : Interference := fun _ x => x

def Sys.interfere (other : Interference) (i : Nat) (s : Sys) : Sys :=
  { s with c := (other i (s.c, s.fs)).1, fs := (other i (s.c, s.fs)).2 }

/-- Lines 104-111: `fuel` bounds the number of polls; `none` means the loop
has not left within `fuel` polls.  `i` counts the polls made so far. -/
def waitForMetaData (other : Interference) : Nat → Nat → Sys → Option Sys
  | 0, _, _ => none
  | fuel + 1, i, s =>
    if s.c.channel.fileMetaData.Name ≠ "" then some s
    else waitForMetaData other fuel (i + 1) (s.interfere other i)

/-- Lines 113-170: everything after the polling loop. -/
def getFilesReadyAfterWait (E : Env) : Prog Unit := do
  -- get passphrase
  let (passphrase, err) ← SessionKey E
  check err
  let c ← getCroc
  if c.UseEncryption then
    -- encrypt file data
    let name ← tempFileName E "croc-encrypted"
    modifyCroc fun c => { c with crocFileEncrypted := name }
    let err ← encryptFile E c.crocFile name passphrase
    check err
    -- remove the unencrypted versoin
    let err ← Remove E c.crocFile
    check err
    modifyChannel fun ch => { ch with fileMetaData := { ch.fileMetaData with IsEncrypted := true } }
  else
    modifyCroc fun c => { c with crocFileEncrypted := c.crocFile }
  -- split into pieces to send
  let c ← getCroc
  let err ← splitFile E c.crocFileEncrypted c.channel.Ports.length
  check err
  -- remove the file now since we still have pieces
  let err ← Remove E c.crocFileEncrypted
  check err
  -- encrypt meta data
  let (metaDataBytes, err) ← Marshal E c.channel.fileMetaData
  check err
  modifyChannel fun ch => { ch with EncryptedFileMetaData := E.encrypt metaDataBytes passphrase }
  modifyChannel fun ch => { ch with Update := true }
  let _errWrite ← WriteJSON E
  modifyChannel fun ch => { ch with Update := false }
  goTask .setFileReady

/-- Line 100: `c.cs.channel.notSentMetaData = true`. -/
def markNotSent (s : Sys) : Sys :=
  { s with c := { s.c with channel := { s.c.channel with notSentMetaData := true } } }

def getFilesReady (E : Env) (other : Interference) (fuel : Nat) (s : Sys) :
    Option (Except Error Unit × Sys) :=
  match waitForMetaData other fuel 0 (markNotSent s) with
  | none => none
  | some s1 => some (getFilesReadyAfterWait E s1)

/-- The state the polling loop sees at its `i`-th poll (counting from 0), when
it starts from `s`. -/
def polled (other : Interference) (s : Sys) : Nat → Sys
  | 0 => s
  | i + 1 => (polled other s i).interfere other i

/-! ## `processReceivedFile` (lines 173-247) -/

/-- Lines 188-192. -/
def filesToCat (c : Croc) : List String :=
  (List.range c.channel.Ports.length).map fun i => c.crocFileEncrypted ++ "." ++ toString i

/-- Lines 188-246: the body, without the deferred publish. -/
def processReceivedFileBody (E : Env) : Prog Unit := do
  let c ← getCroc
  let err ← catFiles E (filesToCat c) c.crocFileEncrypted true
  check err
  -- unencrypt
  let name ← tempFileName E "croc-unencrypted"
  modifyCroc fun c => { c with crocFile := name }
  let (passphrase, err) ← SessionKey E
  check err
  -- decrypt if was encrypted on the other side
  let c ← getCroc
  if c.channel.fileMetaData.IsEncrypted then
    let err ← decryptFile E c.crocFileEncrypted c.crocFile passphrase
    check err
    let _ ← Remove E c.crocFileEncrypted
  else
    modifyCroc fun c => { c with crocFile := c.crocFileEncrypted }
  -- check hash
  let c ← getCroc
  let (hashString, err) ← hashFile E c.crocFile
  check err
  if hashString = c.channel.fileMetaData.Hash then
    pure ()
  else
    check (some ("hashes do not match, " ++ c.channel.fileMetaData.Hash ++ " != " ++ hashString))
  -- unzip file
  let err ← unzipFile E c.crocFile "."
  check err
  let _ ← Remove E c.crocFile
  modifyChannel fun ch => { ch with finishedHappy := true }

/-- Lines 178-186: the deferred function; it runs on every return. -/
def publishOnExit (E : Env) : Prog Unit := do
  modifyChannel fun ch => { ch with Update := true }
  let errWrite ← WriteJSON E
  check errWrite
  modifyChannel fun ch => { ch with Update := false }

def processReceivedFile (E : Env) (s : Sys) : Except Error Unit × Sys :=
  let s0 := { s with c := { s.c with channel := { s.c.channel with FileReceived := true } } }
  let r := processReceivedFileBody E s0
  (r.1, (publishOnExit E r.2).2)

/-! ## A reference environment

`files.go` only calls its collaborators; their code is in other files of the
repository and in Go's standard library.  The definitions below give each of
them a simple executable behaviour that follows the interface the
specification describes, on a flat file system.  They are used to run the
routines on concrete inputs. -/

namespace Model

def write (fs : FS) (p : String) (b : Bytes) : FS :=
  (p, b) :: fs.filter fun e => e.1 != p

def erase (fs : FS) (p : String) : FS :=
  fs.filter fun e => e.1 != p

/-- Length of the longest file name on the disk. -/
def maxLen (fs : FS) : Nat :=
  (fs.map fun e => e.1.length).foldr max 0

/-- Modelled from the spec: the "uniquely-named temporary file (collision-free
naming required)" of `ioutil.TempFile` and `tempFileName`, whose code is not in
`files.go`: the prefix followed by more zeros than any existing name is long. -/
def fresh (fs : FS) (pfx : String) : String :=
  pfx ++ String.mk (List.replicate (maxLen fs + 1) '0')

/-- Modelled from the spec: `ioutil.TempFile`, which creates an empty,
uniquely named file and returns its name. -/
def TempFile (fs : FS) (_dir pfx : String) : (String × Option Error) × FS :=
  ((fresh fs pfx, none), write fs (fresh fs pfx) [])

/-- Modelled from the spec: `io.Copy(f, os.Stdin)`, draining standard input
into the open file. -/
def Copy (fs : FS) (name : String) (data : Bytes) : Option Error × FS :=
  if (fs.read name).isSome then (none, write fs name data)
  else (some "copy: file is not open", fs)

/-- Modelled from the spec: `f.Close()`. -/
def Close (fs : FS) (_name : String) : Option Error × FS := (none, fs)

/-- Modelled from the spec: `exists`, "the path is resolved and must exist". -/
def exists_ (fs : FS) (p : String) : Bool := (fs.read p).isSome

/-- Modelled from the spec: `filepath.Split(filepath.Clean(src))` on a flat
file system, where a path is a file name. -/
def SplitClean (src : String) : String × String := ("", src)

/-- Modelled from the spec: `path.Join` on a flat file system. -/
def Join (dir name : String) : String :=
  if dir = "" ∨ dir = "." then name else dir ++ "/" ++ name

/-- Modelled from the spec: `os.Stat`; every file of the flat file system is
a regular file. -/
def Stat (fs : FS) (p : String) : Bool × Option Error :=
  if (fs.read p).isSome then (false, none) else (false, some "stat: no such file or directory")

/-- Modelled from the spec: the archive format behind `zipFile`, "a single-blob
container encoding a file": the length of the name, the name, the content. -/
def archive (name : String) (b : Bytes) : Bytes :=
  name.length :: (name.toList.map Char.toNat ++ b)

/-- Modelled from the spec: `zipFile`, `archive(path) -> blob`, written to a
new temporary file whose name is returned. -/
def zipFile (fs : FS) (p : String) (_compress : Bool) : (String × Option Error) × FS :=
  match fs.read p with
  | none => (("", some "zip: no such file or directory"), fs)
  | some b => ((fresh fs "croc-zipped", none), write fs (fresh fs "croc-zipped") (archive p b))

/-- Modelled from the spec: the "content digest" of `hashFile`, rendered as a
string; it reads nothing but the content. -/
def digest (b : Bytes) : String :=
  toString (b.foldl (fun h x => (h * 31 + x) % 65521) 7)

/-- Modelled from the spec: `hashFile`, `identity(archivedPath) -> hash`,
failing with an I/O error when the file cannot be read. -/
def hashFile (fs : FS) (p : String) : String × Option Error :=
  match fs.read p with
  | none => ("", some "hash: no such file or directory")
  | some b => (digest b, none)

/-- Modelled from the spec: `fileSize`, the byte length of the archived blob. -/
def fileSize (fs : FS) (p : String) : Int × Option Error :=
  match fs.read p with
  | none => (0, some "stat: no such file or directory")
  | some b => (b.length, none)

/-- Modelled from the spec: `Pake.SessionKey`, `deriveKey`, which "fails with
KeyExchangeIncomplete if called before the exchange has produced a key". -/
def SessionKey (pake : Pake) : Bytes × Option Error :=
  match pake with
  | none => ([], some "KeyExchangeIncomplete")
  | some key => (key, none)

/-- Modelled from the spec: `tempFileName`, a collision-free name; the file is
not created. -/
def tempFileName (fs : FS) (pfx : String) : String × FS := (fresh fs pfx, fs)

/-- Modelled from the spec: the authenticated cipher behind `encryptFile` and
`encrypt`: a tag that depends on the key, then every byte shifted by the key. -/
def cipher (key b : Bytes) : Bytes :=
  key.sum % 256 :: b.map fun x => x + key.sum

/-- Modelled from the spec: the inverse of `cipher`, failing on a tag mismatch
("CryptoError on malformed ciphertext or authentication-tag mismatch"). -/
def decipher (key c : Bytes) : Option Bytes :=
  match c with
  | [] => none
  | tag :: body => if tag = key.sum % 256 then some (body.map fun x => x - key.sum) else none

/-- Modelled from the spec: `encryptFile(inputPath, outputPath, key)`. -/
def encryptFile (fs : FS) (src dst : String) (key : Bytes) : Option Error × FS :=
  match fs.read src with
  | none => (some "encrypt: no such file or directory", fs)
  | some b => (none, write fs dst (cipher key b))

/-- Modelled from the spec: `decryptFile(inputPath, outputPath, key)`. -/
def decryptFile (fs : FS) (src dst : String) (key : Bytes) : Option Error × FS :=
  match fs.read src with
  | none => (some "decrypt: no such file or directory", fs)
  | some c =>
    match decipher key c with
    | none => (some "CryptoError", fs)
    | some b => (none, write fs dst b)

/-- Modelled from the spec: `os.Remove`, which removes the named file and
fails when there is none. -/
def Remove (fs : FS) (p : String) : Option Error × FS :=
  if (fs.read p).isSome then (none, erase fs p)
  else (some "remove: no such file or directory", fs)

/-- Modelled from the spec: the pieces of `split`: `n` pieces of `sz` bytes,
"the last chunk absorbs the remainder". -/
def chunks (sz : Nat) : Nat → Bytes → List Bytes
  | 0, _ => []
  | 1, b => [b]
  | n + 2, b => b.take sz :: chunks sz (n + 1) (b.drop sz)

/-- Writes the pieces as `p.i`, `p.(i+1)`, ... -/
def writeChunks (p : String) : Nat → List Bytes → FS → FS
  | _, [], fs => fs
  | i, b :: bs, fs => writeChunks p (i + 1) bs (write fs (p ++ "." ++ toString i) b)

/-- Modelled from the spec: `splitFile`, `split(inputPath, chunkCount)`, which
"produces exactly chunkCount files named deterministically by index (0-based),
covering the input byte-for-byte". -/
def splitFile (fs : FS) (p : String) (n : Nat) : Option Error × FS :=
  match fs.read p with
  | none => (some "split: no such file or directory", fs)
  | some b =>
    if n = 0 then (some "split: no pieces", fs)
    else (none, writeChunks p 0 (chunks (b.length / n) n b) fs)

/-- Contents of the files `paths`, in order; `none` if one is missing. -/
def readAll (fs : FS) : List String → Option (List Bytes)
  | [] => some []
  | p :: ps =>
    match fs.read p, readAll fs ps with
    | some b, some bs => some (b :: bs)
    | _, _ => none

/-- Modelled from the spec: `catFiles`, `join(chunkPaths, outputPath,
deleteChunksAfter)`, which "concatenates chunk files in ascending index order
into one output file" and removes the chunks when asked to. -/
def catFiles (fs : FS) (paths : List String) (out : String) (del : Bool) : Option Error × FS :=
  match readAll fs paths with
  | none => (some "cat: no such file or directory", fs)
  | some bs =>
    (none, write (if del then paths.foldl erase fs else fs) out bs.flatten)

/-- Modelled from the spec: `unzipFile`, `restore(blobPath, destinationDir)`,
the inverse of `archive`; "fails with FormatError if the blob is not a valid
archive". -/
def unzipFile (fs : FS) (p dest : String) : Option Error × FS :=
  match fs.read p with
  | none => (some "unzip: no such file or directory", fs)
  | some [] => (some "FormatError", fs)
  | some (n :: rest) =>
    if rest.length < n then (some "FormatError", fs)
    else (none, write fs (Join dest (String.mk ((rest.take n).map Char.ofNat))) (rest.drop n))

/-- Modelled from the spec: `json.Marshal` of the metadata, as a byte string
that lists the fields. -/
def Marshal (fd : FileMetaData) : Bytes × Option Error :=
  (fd.Name.toList.map Char.toNat ++ [0] ++ fd.Hash.toList.map Char.toNat ++
    [0, fd.Size.toNat, fd.IsDir.toNat, fd.IsCompressed.toNat, fd.IsEncrypted.toNat,
      fd.DeleteAfterSending.toNat], none)

/-- Modelled from the spec: the synchronization channel, `publish(snapshot)`,
here a channel that accepts every snapshot. -/
def WriteJSON (_snapshot : channelData) : Option Error := none

/-- The reference environment. -/
def env : Env where
  TempFile := TempFile
  Copy := Copy
  Close := Close
  exists_ := exists_
  SplitClean := SplitClean
  Join := Join
  Stat := Stat
  zipFile := zipFile
  hashFile := hashFile
  fileSize := fileSize
  SessionKey := SessionKey
  tempFileName := tempFileName
  encryptFile := encryptFile
  decryptFile := decryptFile
  Remove := Remove
  splitFile := splitFile
  catFiles := catFiles
  unzipFile := unzipFile
  Marshal := Marshal
  encrypt := fun b key => cipher key b
  WriteJSON := WriteJSON

/-- The reference environment with a synchronization channel that is down. -/
def envOffline : Env := { env with WriteJSON := fun _ => some "websocket: close sent" }

end Model

/-! ## Predicates on runs -/

/-- The calls start with `catFiles paths out true`, and that is the only
`catFiles` call. -/
def catFilesFirst (paths : List String) (out : String) : List Event → Bool
  | .catFiles p o d _ :: rest =>
    decide (p = paths) && decide (o = out) && d && rest.all fun ev => !ev.isCatFiles
  | _ => false

/-- None of the calls is a `WriteJSON`. -/
def noWriteJSON (evs : List Event) : Bool := evs.all fun ev => !ev.isWriteJSON

/-- The last call failed with `e` and every call before it succeeded. -/
def failedAtLast (e : Error) : List Event → Bool
  | [] => false
  | [ev] => decide (ev.err? = some e)
  | ev :: ev1 :: rest => ev.err?.isNone && failedAtLast e (ev1 :: rest)

/-- None of the calls starts a goroutine. -/
def noGo (evs : List Event) : Bool := evs.all fun ev => !ev.isGo

/-- The calls end with a `WriteJSON` call followed by the start of the
goroutine that sets `fileReady`; no earlier call is a `WriteJSON` or starts a
goroutine. -/
def publishThenGo (evs : List Event) : Bool :=
  match evs.reverse with
  | .go .setFileReady _ :: .WriteJSON _ _ :: pre =>
    pre.all fun ev => !ev.isWriteJSON && !ev.isGo
  | _ => false

/-- What `getFilesReady` hands to `WriteJSON`: `Update` is set, `fileReady` is
`ready`, and the encrypted metadata is `encrypt(json(fileMetaData), key)` for
the session key. -/
def publishedSnapshot (E : Env) (ready : Bool) (snapshot : channelData) : Prop :=
  snapshot.Update = true ∧ snapshot.fileReady = ready ∧
  (E.SessionKey snapshot.Pake).2 = none ∧ (E.Marshal snapshot.fileMetaData).2 = none ∧
  snapshot.EncryptedFileMetaData =
    E.encrypt (E.Marshal snapshot.fileMetaData).1 (E.SessionKey snapshot.Pake).1

/-- None of the calls is an `unzipFile`. -/
def noUnzipFile (evs : List Event) : Bool := evs.all fun ev => !ev.isUnzipFile

/-- None of the calls is an `os.Remove`. -/
def noRemove (evs : List Event) : Bool := evs.all fun ev => !ev.isRemove

/-- Every call succeeded. -/
def allSucceeded (evs : List Event) : Bool := evs.all fun ev => ev.err?.isNone

/-- What the round trip assumes of the collaborators, for the session key
`K` and `n` chunks. -/
structure RoundTrip (E : Env) (K : Bytes) (n : Nat) : Prop where
  /-- Joining, in ascending index order, the `n` chunks that `splitFile` wrote
  (held under the receiver's chunk names) reproduces the file that was split. -/
  split_cat : 1 ≤ n → ∀ fsS path fsS1 fsR p fsR1,
    E.splitFile fsS path n = (none, fsS1) →
    (∀ i, i < n →
      FS.read fsR (p ++ "." ++ toString i) = FS.read fsS1 (path ++ "." ++ toString i)) →
    E.catFiles fsR ((List.range n).map fun i => p ++ "." ++ toString i) p true = (none, fsR1) →
    FS.read fsR1 p = FS.read fsS path
  /-- `decryptFile` with `K` inverts `encryptFile` with `K`. -/
  decrypt_encrypt : ∀ fsS src dst fsS1 b,
    FS.read fsS src = some b → E.encryptFile fsS src dst K = (none, fsS1) →
    ∃ ct, FS.read fsS1 dst = some ct ∧ ∀ fsR i o fsR1,
      FS.read fsR i = some ct → E.decryptFile fsR i o K = (none, fsR1) →
      FS.read fsR1 o = some b
  /-- `hashFile` depends only on the content of the file. -/
  hash_content : ∀ fs p fs1 p1, FS.read fs p = FS.read fs1 p1 →
    E.hashFile fs p = E.hashFile fs1 p1
  /-- A temporary name is the name of no existing file, and asking for one
  changes no other file. -/
  temp_fresh : ∀ fs pfx name fs1, E.tempFileName fs pfx = (name, fs1) →
    FS.read fs name = none ∧ ∀ q, q ≠ name → FS.read fs1 q = FS.read fs q
  /-- `os.Remove` changes no file but the one it is called on. -/
  remove_frame : ∀ fs p err fs1, E.Remove fs p = (err, fs1) →
    ∀ q, q ≠ p → FS.read fs1 q = FS.read fs q

/-- What keeping the file `t`, of content `b`, asks of the collaborators that
`processFile("stdin")` and `getFilesReady` call, when `x` is the path of the
file that is split: copying standard input into `t` gives it the content `b`,
and no later call changes `t` unless it is a removal of `t` itself. -/
structure KeepsFile (E : Env) (t : String) (b : Bytes) (x : String) : Prop where
  copy : ∀ fs fs1, E.Copy fs t b = (none, fs1) → FS.read fs1 t = some b
  close : ∀ fs name fs1, E.Close fs name = (none, fs1) →
    FS.read fs t = some b → FS.read fs1 t = some b
  zip : ∀ fs p cmp z fs1, E.zipFile fs p cmp = ((z, none), fs1) →
    FS.read fs t = some b → FS.read fs1 t = some b
  temp : ∀ fs pfx name fs1, E.tempFileName fs pfx = (name, fs1) →
    FS.read fs t = some b → FS.read fs1 t = some b
  encrypt : ∀ fs src key fs1, E.encryptFile fs src x key = (none, fs1) →
    FS.read fs t = some b → FS.read fs1 t = some b
  split : ∀ fs n fs1, E.splitFile fs x n = (none, fs1) →
    FS.read fs t = some b → FS.read fs1 t = some b
  remove : ∀ fs p fs1, p ≠ t → E.Remove fs p = (none, fs1) →
    FS.read fs t = some b → FS.read fs1 t = some b

/-! ## Scenarios

Concrete runs in the reference environment: a sender with the file
`notes.txt` and two ports, a receiver that holds the two chunks, a receiver
one of whose chunks was altered on the way, a sender whose key exchange has
not finished, and a sender that reads standard input. -/

namespace Scenario

/-- The sender before `processFile("notes.txt")`. -/
def sender : Sys :=
  ⟨{ UseEncryption := true,
     channel := { Ports := ["27001", "27002"], Pake := some [1, 2], codePhrase := "a-b-c" } },
    [("notes.txt", [104, 105, 33])], [], []⟩

/-- The sender after `processFile("notes.txt")`. -/
def afterProcess : Sys := (processFile Model.env "notes.txt" sender).2

/-- The sender after `processFile("notes.txt")` and then `getFilesReady`. -/
def afterReady : Sys := (getFilesReadyAfterWait Model.env (markNotSent afterProcess)).2

/-- The archive of `notes.txt`. -/
def archive : Bytes := [9, 110, 111, 116, 101, 115, 46, 116, 120, 116, 104, 105, 33]

/-- The sender after `processFile("notes.txt")`, with an empty log. -/
def prepared : Sys := ⟨afterProcess.c, afterProcess.fs, [], []⟩

/-- The sender after `getFilesReady`, run from `prepared`. -/
def ready : Sys := (getFilesReadyAfterWait Model.env (markNotSent prepared)).2

/-- The session record that `ready` handed to `WriteJSON`. -/
def published : channelData := { ready.c.channel with Update := true }

/-- The sender after `getFilesReady`, run from `prepared`, when the
synchronization channel is down. -/
def readyOffline : Sys := (getFilesReadyAfterWait Model.envOffline (markNotSent prepared)).2

/-- The receiver, which has been sent the metadata that `ready` published. -/
def receiver : Croc :=
  { crocFileEncrypted := "croc-received",
    channel := { Ports := ["27001", "27002"], Pake := some [1, 2],
                 fileMetaData := ready.c.channel.fileMetaData } }

/-- The receiver's disk: the two chunks of the sender, under the receiver's
names. -/
def receiverDisk : FS :=
  [("croc-received.0", (ready.fs.read (ready.c.crocFileEncrypted ++ ".0")).getD []),
   ("croc-received.1", (ready.fs.read (ready.c.crocFileEncrypted ++ ".1")).getD [])]

/-- The receiver's disk when the last byte of the second chunk was altered. -/
def tamperedDisk : FS :=
  [("croc-received.0", (ready.fs.read (ready.c.crocFileEncrypted ++ ".0")).getD []),
   ("croc-received.1",
     ((ready.fs.read (ready.c.crocFileEncrypted ++ ".1")).getD []).dropLast ++ [0])]

/-- The sender after `processFile`, when the key exchange has not finished. -/
def noKey : Croc :=
  { prepared.c with channel := { prepared.c.channel with Pake := none } }

/-- The sender after `processFile`, when the key exchange has not finished,
and then `getFilesReady`. -/
def noKeyReady : Sys :=
  (getFilesReadyAfterWait Model.env (markNotSent ⟨noKey, prepared.fs, [], []⟩)).2

/-- The bytes `hello`. -/
def hello : Bytes := [104, 101, 108, 108, 111]

/-- A sender that reads `hello` from standard input. -/
def stdinSender : Sys :=
  ⟨{ UseEncryption := true,
     channel := { Ports := ["27001", "27002"], Pake := some [1, 2], codePhrase := "a-b-c" } },
    [], hello, []⟩

/-- That sender after `processFile("stdin")`. -/
def stdinProcessed : Sys := (processFile Model.env "stdin" stdinSender).2

/-- That sender after `processFile("stdin")` and then `getFilesReady`. -/
def stdinReady : Sys := (getFilesReadyAfterWait Model.env (markNotSent stdinProcessed)).2

end Scenario

/-! ## A small program logic

`wp m Q s` says that running `m` from `s` ends in a result and a state that
satisfy `Q`.  The rules below run a routine one statement at a time and give
a name to what each collaborator returned. -/

def wp {α : Type} (m : Prog α) (Q : Except Error α → Sys → Prop) (s : Sys) : Prop :=
  Q (m s).1 (m s).2

theorem wp_iff {α : Type} (m : Prog α) (Q : Except Error α → Sys → Prop) (s : Sys) :
    wp m Q s ↔ Q (m s).1 (m s).2 := Iff.rfl

@[simp] theorem wp_pure {α : Type} (a : α) (Q : Except Error α → Sys → Prop) (s : Sys) :
    wp (pure a) Q s ↔ Q (.ok a) s := Iff.rfl

theorem wp_bind {α β : Type} (m : Prog α) (f : α → Prog β)
    (Q : Except Error β → Sys → Prop) (s : Sys) :
    wp (m >>= f) Q s ↔
      wp m (fun r s1 => match r with
        | .ok a => wp (f a) Q s1
        | .error e => Q (.error e) s1) s := by
  show Q (Prog.bind m f s).1 (Prog.bind m f s).2 ↔ _
  unfold wp Prog.bind
  rcases h : m s with ⟨r, s1⟩
  cases r <;> rfl

theorem wp_bind_assoc {α β γ : Type} (m : Prog α) (g : α → Prog β) (f : β → Prog γ)
    (Q : Except Error γ → Sys → Prop) (s : Sys) :
    wp ((m >>= g) >>= f) Q s ↔ wp (m >>= fun a => g a >>= f) Q s := by
  have : ((m >>= g) >>= f) = (m >>= fun a => g a >>= f) := by
    funext s
    show Prog.bind (Prog.bind m g) f s = Prog.bind m (fun a => Prog.bind (g a) f) s
    unfold Prog.bind
    rcases m s with ⟨r, s1⟩
    cases r <;> rfl
  rw [this]

theorem wp_ite_bind {α β : Type} (c : Prop) [Decidable c] (a b : Prog α) (f : α → Prog β)
    (Q : Except Error β → Sys → Prop) (s : Sys) :
    wp ((if c then a else b) >>= f) Q s ↔
      (c → wp (a >>= f) Q s) ∧ (¬ c → wp (b >>= f) Q s) := by
  by_cases h : c <;> simp [h]

@[simp] theorem wp_pure_bind {α β : Type} (a : α) (f : α → Prog β)
    (Q : Except Error β → Sys → Prop) (s : Sys) :
    wp (pure a >>= f) Q s ↔ wp (f a) Q s := by
  rw [wp_bind]; rfl

@[simp] theorem wp_check_none {β : Type} (f : Unit → Prog β)
    (Q : Except Error β → Sys → Prop) (s : Sys) :
    wp (check none >>= f) Q s ↔ wp (f ()) Q s := by
  rw [wp_bind]; rfl

@[simp] theorem wp_check_some {β : Type} (e : Error) (f : Unit → Prog β)
    (Q : Except Error β → Sys → Prop) (s : Sys) :
    wp (check (some e) >>= f) Q s ↔ Q (.error e) s := by
  rw [wp_bind]; rfl

@[simp] theorem wp_getCroc {β : Type} (f : Croc → Prog β)
    (Q : Except Error β → Sys → Prop) (s : Sys) :
    wp (getCroc >>= f) Q s ↔ wp (f s.c) Q s := by
  rw [wp_bind]; rfl

@[simp] theorem wp_modifyCroc {β : Type} (g : Croc → Croc) (f : Unit → Prog β)
    (Q : Except Error β → Sys → Prop) (s : Sys) :
    wp (modifyCroc g >>= f) Q s ↔ wp (f ()) Q { s with c := g s.c } := by
  rw [wp_bind]; rfl

@[simp] theorem wp_modifyChannel {β : Type} (g : channelData → channelData) (f : Unit → Prog β)
    (Q : Except Error β → Sys → Prop) (s : Sys) :
    wp (modifyChannel g >>= f) Q s ↔
      wp (f ()) Q { s with c := { s.c with channel := g s.c.channel } } := by
  rw [wp_bind]; rfl

@[simp] theorem wp_modifyChannel_last (g : channelData → channelData)
    (Q : Except Error Unit → Sys → Prop) (s : Sys) :
    wp (modifyChannel g) Q s ↔
      Q (.ok ()) { s with c := { s.c with channel := g s.c.channel } } := Iff.rfl

@[simp] theorem wp_goTask_last (t : Task) (Q : Except Error Unit → Sys → Prop) (s : Sys) :
    wp (goTask t) Q s ↔ Q (.ok ()) { s with trace := s.trace ++ [.go t s.c.channel] } := Iff.rfl

theorem wp_ite {β : Type} (c : Prop) [Decidable c] (a b : Prog β)
    (Q : Except Error β → Sys → Prop) (s : Sys) :
    wp (if c then a else b) Q s ↔ (c → wp a Q s) ∧ (¬ c → wp b Q s) := by
  by_cases h : c <;> simp [h]

section calls
variable {β : Type} {E : Env} {Q : Except Error β → Sys → Prop}
  {c : Croc} {fs : FS} {stdin : Bytes} {tr : List Event}

theorem wp_catFiles {paths : List String} {out : String} {del : Bool}
    {f : Option Error → Prog β}
    (h : ∀ err fs1, E.catFiles fs paths out del = (err, fs1) →
      wp (f err) Q ⟨c, fs1, stdin, tr ++ [.catFiles paths out del err]⟩) :
    wp (catFiles E paths out del >>= f) Q ⟨c, fs, stdin, tr⟩ := by
  rw [wp_bind]; exact h _ _ rfl

theorem wp_tempFileName {pfx : String} {f : String → Prog β}
    (h : ∀ name fs1, E.tempFileName fs pfx = (name, fs1) →
      wp (f name) Q ⟨c, fs1, stdin, tr ++ [.tempFileName pfx name]⟩) :
    wp (tempFileName E pfx >>= f) Q ⟨c, fs, stdin, tr⟩ := by
  rw [wp_bind]; exact h _ _ rfl

theorem wp_SessionKey {f : Bytes × Option Error → Prog β}
    (h : ∀ key err, E.SessionKey c.channel.Pake = (key, err) →
      wp (f (key, err)) Q ⟨c, fs, stdin, tr ++ [.SessionKey key err]⟩) :
    wp (SessionKey E >>= f) Q ⟨c, fs, stdin, tr⟩ := by
  rw [wp_bind]; exact h _ _ rfl

theorem wp_decryptFile {src dst : String} {key : Bytes} {f : Option Error → Prog β}
    (h : ∀ err fs1, E.decryptFile fs src dst key = (err, fs1) →
      wp (f err) Q ⟨c, fs1, stdin, tr ++ [.decryptFile src dst key err]⟩) :
    wp (decryptFile E src dst key >>= f) Q ⟨c, fs, stdin, tr⟩ := by
  rw [wp_bind]; exact h _ _ rfl

theorem wp_encryptFile {src dst : String} {key : Bytes} {f : Option Error → Prog β}
    (h : ∀ err fs1, E.encryptFile fs src dst key = (err, fs1) →
      wp (f err) Q ⟨c, fs1, stdin, tr ++ [.encryptFile src dst key err]⟩) :
    wp (encryptFile E src dst key >>= f) Q ⟨c, fs, stdin, tr⟩ := by
  rw [wp_bind]; exact h _ _ rfl

theorem wp_Remove {p : String} {f : Option Error → Prog β}
    (h : ∀ err fs1, E.Remove fs p = (err, fs1) →
      wp (f err) Q ⟨c, fs1, stdin, tr ++ [.Remove p err]⟩) :
    wp (Remove E p >>= f) Q ⟨c, fs, stdin, tr⟩ := by
  rw [wp_bind]; exact h _ _ rfl

theorem wp_hashFile {p : String} {f : String × Option Error → Prog β}
    (h : ∀ hash err, E.hashFile fs p = (hash, err) →
      wp (f (hash, err)) Q ⟨c, fs, stdin, tr ++ [.hashFile p hash err]⟩) :
    wp (hashFile E p >>= f) Q ⟨c, fs, stdin, tr⟩ := by
  rw [wp_bind]; exact h _ _ rfl

theorem wp_unzipFile {p dest : String} {f : Option Error → Prog β}
    (h : ∀ err fs1, E.unzipFile fs p dest = (err, fs1) →
      wp (f err) Q
        ⟨c, fs1, stdin, tr ++ [.unzipFile p dest (fs.read p) err]⟩) :
    wp (unzipFile E p dest >>= f) Q ⟨c, fs, stdin, tr⟩ := by
  rw [wp_bind]; exact h _ _ rfl

theorem wp_WriteJSON {f : Option Error → Prog β}
    (h : ∀ err, E.WriteJSON c.channel = err →
      wp (f err) Q ⟨c, fs, stdin, tr ++ [.WriteJSON c.channel err]⟩) :
    wp (WriteJSON E >>= f) Q ⟨c, fs, stdin, tr⟩ := by
  rw [wp_bind]; exact h _ rfl

theorem wp_TempFile {dir pfx : String} {f : String × Option Error → Prog β}
    (h : ∀ name err fs1, E.TempFile fs dir pfx = ((name, err), fs1) →
      wp (f (name, err)) Q
        ⟨c, fs1, stdin, tr ++ [.TempFile dir pfx name err]⟩) :
    wp (TempFile E dir pfx >>= f) Q ⟨c, fs, stdin, tr⟩ := by
  rw [wp_bind]; exact h _ _ _ rfl

theorem wp_Copy {name : String} {f : Option Error → Prog β}
    (h : ∀ err fs1, E.Copy fs name stdin = (err, fs1) →
      wp (f err) Q
        ⟨c, fs1, [], tr ++ [.Copy name stdin err]⟩) :
    wp (Copy E name >>= f) Q ⟨c, fs, stdin, tr⟩ := by
  rw [wp_bind]; exact h _ _ rfl

theorem wp_Close {name : String} {f : Option Error → Prog β}
    (h : ∀ err fs1, E.Close fs name = (err, fs1) →
      wp (f err) Q ⟨c, fs1, stdin, tr ++ [.Close name err]⟩) :
    wp (Close E name >>= f) Q ⟨c, fs, stdin, tr⟩ := by
  rw [wp_bind]; exact h _ _ rfl

theorem wp_exists_ {p : String} {f : Bool → Prog β}
    (h : ∀ res, E.exists_ fs p = res →
      wp (f res) Q ⟨c, fs, stdin, tr ++ [.exists_ p res]⟩) :
    wp (exists_ E p >>= f) Q ⟨c, fs, stdin, tr⟩ := by
  rw [wp_bind]; exact h _ rfl

theorem wp_Stat {p : String} {f : Bool × Option Error → Prog β}
    (h : ∀ isDir err, E.Stat fs p = (isDir, err) →
      wp (f (isDir, err)) Q ⟨c, fs, stdin, tr ++ [.Stat p isDir err]⟩) :
    wp (Stat E p >>= f) Q ⟨c, fs, stdin, tr⟩ := by
  rw [wp_bind]; exact h _ _ rfl

theorem wp_zipFile {p : String} {compress : Bool} {f : String × Option Error → Prog β}
    (h : ∀ out err fs1, E.zipFile fs p compress = ((out, err), fs1) →
      wp (f (out, err)) Q
        ⟨c, fs1, stdin, tr ++ [.zipFile p compress out err]⟩) :
    wp (zipFile E p compress >>= f) Q ⟨c, fs, stdin, tr⟩ := by
  rw [wp_bind]; exact h _ _ _ rfl

theorem wp_fileSize {p : String} {f : Int × Option Error → Prog β}
    (h : ∀ size err, E.fileSize fs p = (size, err) →
      wp (f (size, err)) Q ⟨c, fs, stdin, tr ++ [.fileSize p size err]⟩) :
    wp (fileSize E p >>= f) Q ⟨c, fs, stdin, tr⟩ := by
  rw [wp_bind]; exact h _ _ rfl

theorem wp_splitFile {p : String} {n : Nat} {f : Option Error → Prog β}
    (h : ∀ err fs1, E.splitFile fs p n = (err, fs1) →
      wp (f err) Q ⟨c, fs1, stdin, tr ++ [.splitFile p n err]⟩) :
    wp (splitFile E p n >>= f) Q ⟨c, fs, stdin, tr⟩ := by
  rw [wp_bind]; exact h _ _ rfl

theorem wp_Marshal {fd : FileMetaData} {f : Bytes × Option Error → Prog β}
    (h : ∀ bytes err, E.Marshal fd = (bytes, err) →
      wp (f (bytes, err)) Q ⟨c, fs, stdin, tr ++ [.Marshal fd err]⟩) :
    wp (Marshal E fd >>= f) Q ⟨c, fs, stdin, tr⟩ := by
  rw [wp_bind]; exact h _ _ rfl

end calls


/-! ## `processReceivedFile`: the shape of a run -/

/-- The body of `processReceivedFile` starts with the `catFiles` call on the
chunk names, makes no other `catFiles` call and no `WriteJSON` call, and
leaves `FileReceived` as it is. -/
theorem processReceivedFileBody_trace (E : Env) (c : Croc) (fs : FS) (stdin : Bytes)
    (tr : List Event) :
    wp (processReceivedFileBody E) (fun _ s1 => tr <+: s1.trace ∧
      catFilesFirst (filesToCat c) c.crocFileEncrypted (s1.trace.drop tr.length) = true ∧
      noWriteJSON (s1.trace.drop tr.length) = true ∧
      s1.c.channel.FileReceived = c.channel.FileReceived) ⟨c, fs, stdin, tr⟩ := by
  unfold processReceivedFileBody
  simp only [wp_getCroc]
  refine wp_catFiles ?_; rintro (_ | e) fs1 h1 <;>
    simp [catFilesFirst, noWriteJSON, Event.isWriteJSON, Event.isCatFiles]
  refine wp_tempFileName ?_; rintro name fs2 h2; simp
  refine wp_SessionKey ?_; rintro key (_ | e) h3 <;>
    simp [catFilesFirst, noWriteJSON, Event.isWriteJSON, Event.isCatFiles]
  rw [wp_ite]; constructor <;> intro hc <;> try simp
  · refine wp_decryptFile ?_; rintro (_ | e) fs3 h4 <;>
      simp [catFilesFirst, noWriteJSON, Event.isWriteJSON, Event.isCatFiles]
    refine wp_Remove ?_; rintro _ fs4 h5; simp
    refine wp_hashFile ?_; rintro hash (_ | e) h6 <;>
      simp [catFilesFirst, noWriteJSON, Event.isWriteJSON, Event.isCatFiles]
    rw [wp_ite]; constructor <;> intro hh <;>
      simp [catFilesFirst, noWriteJSON, Event.isWriteJSON, Event.isCatFiles]
    refine wp_unzipFile ?_; rintro (_ | e) fs5 h7 <;>
      simp [catFilesFirst, noWriteJSON, Event.isWriteJSON, Event.isCatFiles]
    refine wp_Remove ?_; rintro _ fs6 h8
    simp [catFilesFirst, noWriteJSON, Event.isWriteJSON, Event.isCatFiles]
  · refine wp_hashFile ?_; rintro hash (_ | e) h6 <;>
      simp [catFilesFirst, noWriteJSON, Event.isWriteJSON, Event.isCatFiles]
    rw [wp_ite]; constructor <;> intro hh <;>
      simp [catFilesFirst, noWriteJSON, Event.isWriteJSON, Event.isCatFiles]
    refine wp_unzipFile ?_; rintro (_ | e) fs5 h7 <;>
      simp [catFilesFirst, noWriteJSON, Event.isWriteJSON, Event.isCatFiles]
    refine wp_Remove ?_; rintro _ fs6 h8
    simp [catFilesFirst, noWriteJSON, Event.isWriteJSON, Event.isCatFiles]

/-- The deferred function makes one call, `WriteJSON`, on the record with
`Update` set, and clears `Update` only when the write succeeded. -/
theorem publishOnExit_run (E : Env) (s : Sys) :
    (publishOnExit E s).2.trace =
        s.trace ++ [Event.WriteJSON { s.c.channel with Update := true }
          (E.WriteJSON { s.c.channel with Update := true })] ∧
      (publishOnExit E s).2.c.channel.Update =
        (E.WriteJSON { s.c.channel with Update := true }).isSome := by
  obtain ⟨c, fs, stdin, tr⟩ := s
  show wp (publishOnExit E) (fun _ s1 => s1.trace = _ ∧ s1.c.channel.Update = _) _
  unfold publishOnExit
  simp only [wp_modifyChannel]
  refine wp_WriteJSON ?_; rintro (_ | e) h <;> simp_all


theorem catFilesFirst_eq {paths : List String} {out : String} {evs : List Event}
    (h : catFilesFirst paths out evs = true) :
    ∃ err rest, evs = Event.catFiles paths out true err :: rest ∧
      ∀ ev ∈ rest, ev.isCatFiles = false := by
  cases evs with
  | nil => simp [catFilesFirst] at h
  | cons ev rest =>
    cases ev <;> simp [catFilesFirst] at h
    obtain ⟨⟨⟨rfl, rfl⟩, rfl⟩, h⟩ := h
    exact ⟨_, rest, rfl, h⟩

/-- A run of `processReceivedFile`: the body's calls, then the one call of the
deferred function. -/
theorem processReceivedFile_run (E : Env) (s : Sys) :
    ∃ pre snapshot,
      (processReceivedFile E s).2.trace =
        s.trace ++ pre ++ [Event.WriteJSON snapshot (E.WriteJSON snapshot)] ∧
      catFilesFirst (filesToCat s.c) s.c.crocFileEncrypted pre = true ∧
      noWriteJSON pre = true ∧
      snapshot.FileReceived = true ∧ snapshot.Update = true ∧
      (processReceivedFile E s).2.c.channel.Update = (E.WriteJSON snapshot).isSome := by
  obtain ⟨c, fs, stdin, tr⟩ := s
  have hb := (wp_iff _ _ _).1 (processReceivedFileBody_trace E
    { c with channel := { c.channel with FileReceived := true } } fs stdin tr)
  obtain ⟨h1, h2, h3, h4⟩ := hb
  have hp := publishOnExit_run E (processReceivedFileBody E
    ⟨{ c with channel := { c.channel with FileReceived := true } }, fs, stdin, tr⟩).2
  refine ⟨_, _, ?_, h2, h3, ?_, rfl, hp.2⟩
  · show (publishOnExit E _).2.trace = _
    rw [hp.1, List.prefix_iff_eq_append.1 h1]
  · exact h4

/-- C3 (publish on exit): on every exit path of `processReceivedFile` the
calls it makes are some calls none of which is `WriteJSON`, followed by exactly
one `WriteJSON` call as the last action, and the session record handed to that
call has `FileReceived = true` (and `Update = true`). -/
theorem processReceivedFile_publish_on_exit (E : Env) (s : Sys) :
    ∃ pre snapshot err,
      (processReceivedFile E s).2.trace = s.trace ++ pre ++ [Event.WriteJSON snapshot err] ∧
      (∀ ev ∈ pre, ev.isWriteJSON = false) ∧
      snapshot.FileReceived = true ∧ snapshot.Update = true := by
  obtain ⟨pre, snapshot, h1, -, h3, h4, h5, -⟩ := processReceivedFile_run E s
  refine ⟨pre, snapshot, _, h1, ?_, h4, h5⟩
  intro ev hev
  have := List.all_eq_true.1 h3 ev hev
  simpa using this


/-! ## `getFilesReady`: the shape of a run -/

/-- The steps of `getFilesReady` after the polling loop.  Every `splitFile`
call is on `c.crocFileEncrypted` with `len(Ports)` pieces.  If the steps
return an error, it is the error of the last call made, every earlier call
succeeded, nothing was published, no goroutine was started and the encrypted
metadata is unchanged.  If they return no error, the calls end with
`WriteJSON` and the start of the goroutine, `Update` is false again, and every
call other than `WriteJSON` succeeded. -/
theorem getFilesReadyAfterWait_run (E : Env) (c : Croc) (fs : FS) (stdin : Bytes)
    (tr : List Event) :
    wp (getFilesReadyAfterWait E) (fun r s1 => tr <+: s1.trace ∧
      s1.c.channel.Ports = c.channel.Ports ∧
      s1.c.channel.fileReady = c.channel.fileReady ∧
      (∀ p k err, Event.splitFile p k err ∈ s1.trace.drop tr.length →
        p = s1.c.crocFileEncrypted ∧ k = c.channel.Ports.length) ∧
      (∀ snapshot err, Event.WriteJSON snapshot err ∈ s1.trace.drop tr.length →
        publishedSnapshot E c.channel.fileReady snapshot ∧ err = E.WriteJSON snapshot) ∧
      (∀ t now, Event.go t now ∈ s1.trace.drop tr.length →
        t = Task.setFileReady ∧ now.Update = false ∧ now.fileReady = c.channel.fileReady) ∧
      match r with
      | .error e =>
        failedAtLast e (s1.trace.drop tr.length) = true ∧
        noWriteJSON (s1.trace.drop tr.length) = true ∧
        noGo (s1.trace.drop tr.length) = true ∧
        s1.c.channel.EncryptedFileMetaData = c.channel.EncryptedFileMetaData
      | .ok _ =>
        publishThenGo (s1.trace.drop tr.length) = true ∧
        s1.c.channel.Update = false ∧
        (s1.trace.drop tr.length).filter Event.isSplitFile =
          [Event.splitFile s1.c.crocFileEncrypted c.channel.Ports.length none] ∧
        ∀ ev ∈ s1.trace.drop tr.length, ev.isWriteJSON = false → ev.err? = none)
      ⟨c, fs, stdin, tr⟩ := by
  unfold getFilesReadyAfterWait
  refine wp_SessionKey ?_; rintro key (_ | e) h1 <;>
    simp only [wp_pure, wp_pure_bind, wp_check_none, wp_check_some, wp_getCroc, wp_modifyCroc,
      wp_modifyChannel, wp_modifyChannel_last, wp_goTask_last]
  on_goal 2 => simp +contextual [failedAtLast, noWriteJSON, noGo, publishThenGo, Event.err?,
      Event.isWriteJSON, Event.isGo, Event.isSplitFile]
  rw [wp_ite]; constructor <;> intro hc <;>
    try simp only [wp_pure, wp_pure_bind, wp_check_none, wp_check_some, wp_getCroc, wp_modifyCroc,
      wp_modifyChannel, wp_modifyChannel_last, wp_goTask_last]
  · refine wp_tempFileName ?_; rintro name fs1 h2
    simp only [wp_pure, wp_pure_bind, wp_check_none, wp_check_some, wp_getCroc, wp_modifyCroc,
      wp_modifyChannel, wp_modifyChannel_last, wp_goTask_last]
    refine wp_encryptFile ?_; rintro (_ | e) fs2 h3 <;>
      simp only [wp_pure, wp_pure_bind, wp_check_none, wp_check_some, wp_getCroc, wp_modifyCroc,
      wp_modifyChannel, wp_modifyChannel_last, wp_goTask_last]
    on_goal 2 => simp +contextual [failedAtLast, noWriteJSON, noGo, publishThenGo, Event.err?,
      Event.isWriteJSON, Event.isGo, Event.isSplitFile]
    refine wp_Remove ?_; rintro (_ | e) fs3 h4 <;>
      simp only [wp_pure, wp_pure_bind, wp_check_none, wp_check_some, wp_getCroc, wp_modifyCroc,
      wp_modifyChannel, wp_modifyChannel_last, wp_goTask_last]
    on_goal 2 => simp +contextual [failedAtLast, noWriteJSON, noGo, publishThenGo, Event.err?,
      Event.isWriteJSON, Event.isGo, Event.isSplitFile]
    refine wp_splitFile ?_; rintro (_ | e) fs4 h5 <;>
      simp only [wp_pure, wp_pure_bind, wp_check_none, wp_check_some, wp_getCroc, wp_modifyCroc,
      wp_modifyChannel, wp_modifyChannel_last, wp_goTask_last]
    on_goal 2 => simp +contextual [failedAtLast, noWriteJSON, noGo, publishThenGo, Event.err?,
      Event.isWriteJSON, Event.isGo, Event.isSplitFile]
    refine wp_Remove ?_; rintro (_ | e) fs5 h6 <;>
      simp only [wp_pure, wp_pure_bind, wp_check_none, wp_check_some, wp_getCroc, wp_modifyCroc,
      wp_modifyChannel, wp_modifyChannel_last, wp_goTask_last]
    on_goal 2 => simp +contextual [failedAtLast, noWriteJSON, noGo, publishThenGo, Event.err?,
      Event.isWriteJSON, Event.isGo, Event.isSplitFile]
    refine wp_Marshal ?_; rintro bytes (_ | e) h7 <;>
      simp only [wp_pure, wp_pure_bind, wp_check_none, wp_check_some, wp_getCroc, wp_modifyCroc,
      wp_modifyChannel, wp_modifyChannel_last, wp_goTask_last]
    on_goal 2 => simp +contextual [failedAtLast, noWriteJSON, noGo, publishThenGo, Event.err?,
      Event.isWriteJSON, Event.isGo, Event.isSplitFile]
    refine wp_WriteJSON ?_; rintro err h8
    simp only [wp_pure, wp_pure_bind, wp_check_none, wp_check_some, wp_getCroc, wp_modifyCroc,
      wp_modifyChannel, wp_modifyChannel_last, wp_goTask_last]
    simp +contextual [publishedSnapshot, publishThenGo, Event.err?, Event.isWriteJSON, Event.isGo,
      Event.isSplitFile, h1, h7, h8]
  · refine wp_splitFile ?_; rintro (_ | e) fs4 h5 <;>
      simp only [wp_pure, wp_pure_bind, wp_check_none, wp_check_some, wp_getCroc, wp_modifyCroc,
      wp_modifyChannel, wp_modifyChannel_last, wp_goTask_last]
    on_goal 2 => simp +contextual [failedAtLast, noWriteJSON, noGo, publishThenGo, Event.err?,
      Event.isWriteJSON, Event.isGo, Event.isSplitFile]
    refine wp_Remove ?_; rintro (_ | e) fs5 h6 <;>
      simp only [wp_pure, wp_pure_bind, wp_check_none, wp_check_some, wp_getCroc, wp_modifyCroc,
      wp_modifyChannel, wp_modifyChannel_last, wp_goTask_last]
    on_goal 2 => simp +contextual [failedAtLast, noWriteJSON, noGo, publishThenGo, Event.err?,
      Event.isWriteJSON, Event.isGo, Event.isSplitFile]
    refine wp_Marshal ?_; rintro bytes (_ | e) h7 <;>
      simp only [wp_pure, wp_pure_bind, wp_check_none, wp_check_some, wp_getCroc, wp_modifyCroc,
      wp_modifyChannel, wp_modifyChannel_last, wp_goTask_last]
    on_goal 2 => simp +contextual [failedAtLast, noWriteJSON, noGo, publishThenGo, Event.err?,
      Event.isWriteJSON, Event.isGo, Event.isSplitFile]
    refine wp_WriteJSON ?_; rintro err h8
    simp only [wp_pure, wp_pure_bind, wp_check_none, wp_check_some, wp_getCroc, wp_modifyCroc,
      wp_modifyChannel, wp_modifyChannel_last, wp_goTask_last]
    simp +contextual [publishedSnapshot, publishThenGo, Event.err?, Event.isWriteJSON, Event.isGo,
      Event.isSplitFile, h1, h7, h8]


/-! ## The polling loop -/

theorem waitForMetaData_polled (other : Interference) (s0 : Sys) (fuel : Nat) :
    ∀ (i : Nat) (sw : Sys), waitForMetaData other fuel i (polled other s0 i) = some sw →
      ∃ j, i ≤ j ∧ j < i + fuel ∧ sw = polled other s0 j ∧
        sw.c.channel.fileMetaData.Name ≠ "" ∧
        ∀ k, i ≤ k → k < j → (polled other s0 k).c.channel.fileMetaData.Name = "" := by
  induction fuel with
  | zero => intro i sw h; simp [waitForMetaData] at h
  | succ n ih =>
    intro i sw h
    unfold waitForMetaData at h
    by_cases hn : (polled other s0 i).c.channel.fileMetaData.Name = ""
    · rw [if_neg (not_not.2 hn)] at h
      obtain ⟨j, h1, h2, h3, h4, h5⟩ := ih (i + 1) sw h
      refine ⟨j, by omega, by omega, h3, h4, ?_⟩
      intro k hk1 hk2
      rcases Nat.eq_or_lt_of_le hk1 with rfl | hk
      · exact hn
      · exact h5 k hk hk2
    · rw [if_pos hn] at h
      cases h
      exact ⟨i, le_refl _, by omega, rfl, hn, fun k h1 h2 => absurd h2 (by omega)⟩

theorem waitForMetaData_none (other : Interference) (s0 : Sys)
    (h : ∀ i, (polled other s0 i).c.channel.fileMetaData.Name = "") (fuel : Nat) :
    ∀ i, waitForMetaData other fuel i (polled other s0 i) = none := by
  induction fuel with
  | zero => intro i; rfl
  | succ n ih =>
    intro i
    unfold waitForMetaData
    rw [if_neg (not_not.2 (h i))]
    exact ih (i + 1)

theorem waitForMetaData_some (other : Interference) (s0 : Sys) (j : Nat)
    (hj : (polled other s0 j).c.channel.fileMetaData.Name ≠ "") (fuel : Nat) :
    ∀ i, i ≤ j → j < i + fuel → (waitForMetaData other fuel i (polled other s0 i)).isSome := by
  induction fuel with
  | zero => intro i h1 h2; omega
  | succ n ih =>
    intro i h1 h2
    unfold waitForMetaData
    by_cases hn : (polled other s0 i).c.channel.fileMetaData.Name = ""
    · rw [if_neg (not_not.2 hn)]
      have : i ≠ j := fun h => hj (h ▸ hn)
      exact ih (i + 1) (by omega) (by omega)
    · rw [if_pos hn]; rfl

theorem polled_trace (other : Interference) (s0 : Sys) (i : Nat) :
    (polled other s0 i).trace = s0.trace ∧ (polled other s0 i).stdin = s0.stdin := by
  induction i with
  | zero => exact ⟨rfl, rfl⟩
  | succ n ih => exact ih

/-- What the other goroutines preserve at every poll still holds when the
loop is left. -/
theorem polled_inv (other : Interference) (P : Croc × FS → Prop)
    (hP : ∀ i x, P x → P (other i x)) (s0 : Sys) (h0 : P (s0.c, s0.fs)) (i : Nat) :
    P ((polled other s0 i).c, (polled other s0 i).fs) := by
  induction i with
  | zero => exact h0
  | succ n ih => exact hP n _ ih

/-- A run of `getFilesReady` that returns is a run of the steps after the
loop, from a polled state whose metadata has a name. -/
theorem getFilesReady_some {E : Env} {other : Interference} {fuel : Nat} {s : Sys}
    {r : Except Error Unit} {s1 : Sys} (h : getFilesReady E other fuel s = some (r, s1)) :
    ∃ i, i < fuel ∧ (polled other (markNotSent s) i).c.channel.fileMetaData.Name ≠ "" ∧
      (∀ j, j < i → (polled other (markNotSent s) j).c.channel.fileMetaData.Name = "") ∧
      (r, s1) = getFilesReadyAfterWait E (polled other (markNotSent s) i) := by
  unfold getFilesReady at h
  cases hw : waitForMetaData other fuel 0 (markNotSent s) with
  | none => rw [hw] at h; cases h
  | some sw =>
    rw [hw] at h
    obtain ⟨j, -, h2, h3, h4, h5⟩ := waitForMetaData_polled other (markNotSent s) fuel 0 sw hw
    refine ⟨j, by omega, h3 ▸ h4, fun k hk => h5 k (Nat.zero_le _) hk, ?_⟩
    rw [← h3]
    exact (Option.some.inj h).symm

/-! ## Reading the predicates on runs -/

theorem failedAtLast_eq {e : Error} {evs : List Event} (h : failedAtLast e evs = true) :
    ∃ pre ev, evs = pre ++ [ev] ∧ ev.err? = some e ∧ ∀ x ∈ pre, x.err? = none := by
  induction evs with
  | nil => simp [failedAtLast] at h
  | cons a rest ih =>
    cases rest with
    | nil =>
      simp [failedAtLast] at h
      exact ⟨[], a, rfl, h, by simp⟩
    | cons b rest =>
      simp only [failedAtLast, Bool.and_eq_true] at h
      obtain ⟨pre, ev, h1, h2, h3⟩ := ih h.2
      refine ⟨a :: pre, ev, by rw [h1]; rfl, h2, ?_⟩
      intro x hx
      rcases List.mem_cons.1 hx with rfl | hx
      · simpa using h.1
      · exact h3 x hx

theorem publishThenGo_eq {evs : List Event} (h : publishThenGo evs = true) :
    ∃ pre snapshot err now,
      evs = pre ++ [Event.WriteJSON snapshot err, Event.go Task.setFileReady now] ∧
      ∀ x ∈ pre, x.isWriteJSON = false ∧ x.isGo = false := by
  unfold publishThenGo at h
  split at h
  · rename_i now snapshot err pre hrev
    refine ⟨pre.reverse, snapshot, err, now, ?_, ?_⟩
    · have := congrArg List.reverse hrev
      simpa using this
    · intro x hx
      have := List.all_eq_true.1 h x (List.mem_reverse.1 hx)
      simpa using this
  · cases h


/-- A run of `getFilesReady` that starts with an empty log: the facts of
`getFilesReadyAfterWait_run`, about the whole log, with the state `sw` in
which the polling loop was left. -/
theorem getFilesReady_run {E : Env} {other : Interference} {fuel : Nat} {c : Croc} {fs : FS}
    {stdin : Bytes} {r : Except Error Unit} {s1 : Sys}
    (h : getFilesReady E other fuel ⟨c, fs, stdin, []⟩ = some (r, s1)) :
    ∃ i, let sw := polled other (markNotSent ⟨c, fs, stdin, []⟩) i
      s1.c.channel.Ports = sw.c.channel.Ports ∧
      s1.c.channel.fileReady = sw.c.channel.fileReady ∧
      (∀ p k err, Event.splitFile p k err ∈ s1.trace →
        p = s1.c.crocFileEncrypted ∧ k = sw.c.channel.Ports.length) ∧
      (∀ snapshot err, Event.WriteJSON snapshot err ∈ s1.trace →
        publishedSnapshot E sw.c.channel.fileReady snapshot ∧ err = E.WriteJSON snapshot) ∧
      (∀ t now, Event.go t now ∈ s1.trace →
        t = Task.setFileReady ∧ now.Update = false ∧ now.fileReady = sw.c.channel.fileReady) ∧
      (∀ e, r = .error e →
        failedAtLast e s1.trace = true ∧ noWriteJSON s1.trace = true ∧ noGo s1.trace = true ∧
        s1.c.channel.EncryptedFileMetaData = sw.c.channel.EncryptedFileMetaData) ∧
      (r = .ok () →
        publishThenGo s1.trace = true ∧ s1.c.channel.Update = false ∧
        s1.trace.filter Event.isSplitFile =
          [Event.splitFile s1.c.crocFileEncrypted sw.c.channel.Ports.length none] ∧
        ∀ ev ∈ s1.trace, ev.isWriteJSON = false → ev.err? = none) := by
  obtain ⟨i, -, -, -, hrun⟩ := getFilesReady_some h
  refine ⟨i, ?_⟩
  have htr := (polled_trace other (markNotSent ⟨c, fs, stdin, []⟩) i).1
  generalize polled other (markNotSent ⟨c, fs, stdin, []⟩) i = sw at hrun htr
  obtain ⟨c1, fs1, stdin1, tr1⟩ := sw
  have htr1 : tr1 = [] := htr
  subst htr1
  have hw := (wp_iff _ _ _).1 (getFilesReadyAfterWait_run E c1 fs1 stdin1 [])
  rw [← hrun] at hw
  simp only [List.length_nil, List.drop_zero] at hw
  obtain ⟨-, h1, h2, h3, h4, h5, h6⟩ := hw
  refine ⟨h1, h2, h3, h4, h5, ?_, ?_⟩
  · rintro e rfl; exact h6
  · rintro rfl; exact h6

/-! ## Claims about `getFilesReady` -/

/-- C7 (the waiter never proceeds with empty metadata): a run of
`getFilesReady` that returns has left the polling loop at some poll `i`, in a
state whose `fileMetaData.Name` is non-empty (it was empty at every earlier
poll), and what it returns is the result of the steps after the loop
(SessionKey, encryptFile, splitFile, metadata encryption, WriteJSON) run from
that state.  If the observed `Name` is empty at every poll, `getFilesReady`
never leaves the loop, whatever the number of polls allowed, so none of those
steps is executed.  If the `Name` is non-empty at some poll, the loop is left
as soon as that many polls are allowed. -/
theorem getFilesReady_never_proceeds_with_empty_metadata (E : Env) (other : Interference)
    (fuel : Nat) (s : Sys) :
    (∀ r s1, getFilesReady E other fuel s = some (r, s1) →
      ∃ i, i < fuel ∧
        (polled other (markNotSent s) i).c.channel.fileMetaData.Name ≠ "" ∧
        (∀ j, j < i → (polled other (markNotSent s) j).c.channel.fileMetaData.Name = "") ∧
        (r, s1) = getFilesReadyAfterWait E (polled other (markNotSent s) i)) ∧
    ((∀ i, (polled other (markNotSent s) i).c.channel.fileMetaData.Name = "") →
      getFilesReady E other fuel s = none) ∧
    (∀ i, (polled other (markNotSent s) i).c.channel.fileMetaData.Name ≠ "" → i < fuel →
      (getFilesReady E other fuel s).isSome = true) := by
  refine ⟨fun r s1 h => getFilesReady_some h, ?_, ?_⟩
  · intro h
    have h0 := waitForMetaData_none other (markNotSent s) h fuel 0
    change waitForMetaData other fuel 0 (markNotSent s) = none at h0
    unfold getFilesReady
    rw [h0]
  · intro i hi hlt
    have h0 := waitForMetaData_some other (markNotSent s) i hi fuel 0 (Nat.zero_le _) (by omega)
    change (waitForMetaData other fuel 0 (markNotSent s)).isSome = true at h0
    unfold getFilesReady
    cases hw : waitForMetaData other fuel 0 (markNotSent s) with
    | none => rw [hw] at h0; cases h0
    | some sw => rfl

/-- C8 (abort on first failure in `getFilesReady`): in a run of
`getFilesReady` that returns, if a call other than `WriteJSON` (that is,
SessionKey, encryptFile, a removal, splitFile or json.Marshal) fails with `e`,
then `getFilesReady` returns `e`, that call is the last call made and every
call before it succeeded, `WriteJSON` is never called, the goroutine that sets
`fileReady` is never started, and `EncryptedFileMetaData` is what it was (the
other goroutines leaving it alone during the wait). -/
theorem getFilesReady_aborts_on_first_failure (E : Env) (other : Interference) (fuel : Nat)
    (c : Croc) (fs : FS) (stdin : Bytes) (r : Except Error Unit) (s1 : Sys)
    (hother : ∀ i x, (other i x).1.channel.EncryptedFileMetaData =
      x.1.channel.EncryptedFileMetaData)
    (hrun : getFilesReady E other fuel ⟨c, fs, stdin, []⟩ = some (r, s1))
    (ev : Event) (e : Error) (hev : ev ∈ s1.trace) (herr : ev.err? = some e)
    (hw : ev.isWriteJSON = false) :
    r = .error e ∧
    (∃ pre, s1.trace = pre ++ [ev] ∧ ∀ x ∈ pre, x.err? = none) ∧
    (∀ x ∈ s1.trace, x.isWriteJSON = false ∧ x.isGo = false) ∧
    s1.c.channel.EncryptedFileMetaData = c.channel.EncryptedFileMetaData := by
  obtain ⟨i, -, -, -, -, -, hre, hro⟩ := getFilesReady_run hrun
  have hinv := polled_inv other
    (fun x => x.1.channel.EncryptedFileMetaData = c.channel.EncryptedFileMetaData)
    (fun i x hx => (hother i x).trans hx) (markNotSent ⟨c, fs, stdin, []⟩) rfl i
  cases r with
  | ok u =>
    have := (hro rfl).2.2.2 ev hev hw
    rw [herr] at this; cases this
  | error e1 =>
    obtain ⟨h1, h2, h3, h4⟩ := hre e1 rfl
    obtain ⟨pre, ev1, hpre, herr1, hnone⟩ := failedAtLast_eq h1
    have hev1 : ev = ev1 := by
      rw [hpre] at hev
      rcases List.mem_append.1 hev with hin | hin
      · have := hnone ev hin
        rw [herr] at this; cases this
      · simpa using hin
    subst hev1
    rw [herr] at herr1
    cases herr1
    refine ⟨rfl, ⟨pre, hpre, hnone⟩, ?_, h4.trans hinv⟩
    intro x hx
    have a := List.all_eq_true.1 h2 x hx
    have b := List.all_eq_true.1 h3 x hx
    exact ⟨by simpa using a, by simpa using b⟩


/-- C6 (snapshot before fileReady): in a run of `getFilesReady` that starts
with `fileReady = false` (the other goroutines not setting it during the
wait), the record handed to `WriteJSON` has `fileReady = false`,
`Update = true` and `EncryptedFileMetaData = encrypt(json(fileMetaData), key)`;
`getFilesReady` itself returns with `fileReady` still false; the goroutine
that sets `fileReady` is started right after the `WriteJSON` call, as the last
action, when `Update` is false again; and it is that goroutine, run as a step
of its own, that sets `fileReady = true`. -/
theorem getFilesReady_snapshot_before_fileReady (E : Env) (other : Interference) (fuel : Nat)
    (c : Croc) (fs : FS) (stdin : Bytes) (r : Except Error Unit) (s1 : Sys)
    (h0 : c.channel.fileReady = false)
    (hother : ∀ i x, x.1.channel.fileReady = false → (other i x).1.channel.fileReady = false)
    (hrun : getFilesReady E other fuel ⟨c, fs, stdin, []⟩ = some (r, s1)) :
    (∀ snapshot err, Event.WriteJSON snapshot err ∈ s1.trace →
      snapshot.fileReady = false ∧ snapshot.Update = true ∧
      ∃ bytes key, E.Marshal snapshot.fileMetaData = (bytes, none) ∧
        E.SessionKey snapshot.Pake = (key, none) ∧
        snapshot.EncryptedFileMetaData = E.encrypt bytes key) ∧
    s1.c.channel.fileReady = false ∧
    (∀ t now, Event.go t now ∈ s1.trace →
      t = Task.setFileReady ∧ now.Update = false ∧ now.fileReady = false ∧
      ∃ pre snapshot err, s1.trace = pre ++ [Event.WriteJSON snapshot err, Event.go t now] ∧
        ∀ x ∈ pre, x.isWriteJSON = false ∧ x.isGo = false) ∧
    (r = .ok () → ∃ pre snapshot err now,
      s1.trace = pre ++ [Event.WriteJSON snapshot err, Event.go Task.setFileReady now]) ∧
    (Task.setFileReady.run s1.c).channel.fileReady = true := by
  obtain ⟨i, -, h2, -, h4, h5, hre, hro⟩ := getFilesReady_run hrun
  have hinv : (polled other (markNotSent ⟨c, fs, stdin, []⟩) i).c.channel.fileReady = false :=
    polled_inv other (fun x => x.1.channel.fileReady = false) hother
      (markNotSent ⟨c, fs, stdin, []⟩) h0 i
  simp only [hinv] at h2 h4 h5
  refine ⟨?_, h2, ?_, ?_, rfl⟩
  · intro snapshot err hin
    obtain ⟨⟨a1, a2, a3, a4, a5⟩, -⟩ := h4 snapshot err hin
    exact ⟨a2, a1, (E.Marshal snapshot.fileMetaData).1, (E.SessionKey snapshot.Pake).1,
      Prod.ext rfl a4, Prod.ext rfl a3, a5⟩
  · intro t now hin
    obtain ⟨b1, b2, b3⟩ := h5 t now hin
    refine ⟨b1, b2, b3, ?_⟩
    cases r with
    | error e =>
      have := List.all_eq_true.1 (hre e rfl).2.2.1 _ hin
      simp [Event.isGo] at this
    | ok u =>
      obtain ⟨pre, snapshot, err, now1, hpre, hall⟩ := publishThenGo_eq (hro rfl).1
      refine ⟨pre, snapshot, err, ?_, hall⟩
      rw [hpre] at hin
      rcases List.mem_append.1 hin with hin | hin
      · have := (hall _ hin).2
        simp [Event.isGo] at this
      · simp at hin
        rw [hpre, hin.1, hin.2]
  · rintro rfl
    obtain ⟨pre, snapshot, err, now1, hpre, -⟩ := publishThenGo_eq (hro rfl).1
    exact ⟨pre, snapshot, err, now1, hpre⟩

/-- C10 (Update flag after the publish): `processReceivedFile` ends with one
`WriteJSON` call, and on return `Update` is false if that call succeeded and
true if it returned an error; a run of `getFilesReady` that has called
`WriteJSON` returns with `Update = false`, whatever that call returned. -/
theorem update_flag_after_publish (E : Env) (other : Interference) (fuel : Nat)
    (c : Croc) (fs : FS) (stdin : Bytes) :
    (∃ pre snapshot err,
      (processReceivedFile E ⟨c, fs, stdin, []⟩).2.trace = pre ++ [Event.WriteJSON snapshot err] ∧
      (∀ ev ∈ pre, ev.isWriteJSON = false) ∧
      (err = none → (processReceivedFile E ⟨c, fs, stdin, []⟩).2.c.channel.Update = false) ∧
      (∀ e, err = some e →
        (processReceivedFile E ⟨c, fs, stdin, []⟩).2.c.channel.Update = true)) ∧
    (∀ r s1, getFilesReady E other fuel ⟨c, fs, stdin, []⟩ = some (r, s1) →
      ∀ snapshot err, Event.WriteJSON snapshot err ∈ s1.trace →
        s1.c.channel.Update = false) := by
  constructor
  · obtain ⟨pre, snapshot, h1, -, h3, -, -, h6⟩ := processReceivedFile_run E ⟨c, fs, stdin, []⟩
    refine ⟨pre, snapshot, _, by simpa using h1, ?_, ?_, ?_⟩
    · intro ev hev
      have := List.all_eq_true.1 h3 ev hev
      simpa using this
    · intro h; rw [h6, h]; rfl
    · intro e h; rw [h6, h]; rfl
  · intro r s1 hrun snapshot err hin
    obtain ⟨i, -, -, -, -, -, hre, hro⟩ := getFilesReady_run hrun
    cases r with
    | error e =>
      have := List.all_eq_true.1 (hre e rfl).2.1 _ hin
      simp [Event.isWriteJSON] at this
    | ok u => exact (hro rfl).2.1

/-- The `i`-th chunk name is the base path, a dot, and `i` in decimal. -/
theorem filesToCat_get (c : Croc) :
    (filesToCat c).length = c.channel.Ports.length ∧
    ∀ i, i < c.channel.Ports.length →
      (filesToCat c)[i]? = some (c.crocFileEncrypted ++ "." ++ toString i) := by
  constructor
  · simp [filesToCat]
  · intro i hi
    simp [filesToCat, hi]

/-- C5 (chunk join order): the first call of `processReceivedFile` is
`catFiles` on a list of exactly `len(Ports)` paths whose `i`-th element is
`c.crocFileEncrypted`, a dot and `i` in decimal, with output path
`c.crocFileEncrypted` and the delete flag set, and it makes no other
`catFiles` call; every `splitFile` call of `getFilesReady` is on
`c.crocFileEncrypted` with `len(c.cs.channel.Ports)` pieces, and a run that
returns no error makes exactly one such call. -/
theorem chunk_join_order (E : Env) (other : Interference) (fuel : Nat)
    (c : Croc) (fs : FS) (stdin : Bytes) :
    (∃ err rest, (processReceivedFile E ⟨c, fs, stdin, []⟩).2.trace =
        Event.catFiles (filesToCat c) c.crocFileEncrypted true err :: rest ∧
      ∀ ev ∈ rest, ev.isCatFiles = false) ∧
    (filesToCat c).length = c.channel.Ports.length ∧
    (∀ i, i < c.channel.Ports.length →
      (filesToCat c)[i]? = some (c.crocFileEncrypted ++ "." ++ toString i)) ∧
    (∀ r s1, getFilesReady E other fuel ⟨c, fs, stdin, []⟩ = some (r, s1) →
      (∀ p k err, Event.splitFile p k err ∈ s1.trace →
        p = s1.c.crocFileEncrypted ∧ k = s1.c.channel.Ports.length) ∧
      (r = .ok () → s1.trace.filter Event.isSplitFile =
        [Event.splitFile s1.c.crocFileEncrypted s1.c.channel.Ports.length none]) ∧
      ((∀ i x, (other i x).1.channel.Ports = x.1.channel.Ports) →
        s1.c.channel.Ports = c.channel.Ports)) := by
  refine ⟨?_, (filesToCat_get c).1, (filesToCat_get c).2, ?_⟩
  · obtain ⟨pre, snapshot, h1, h2, -, -, -, -⟩ := processReceivedFile_run E ⟨c, fs, stdin, []⟩
    obtain ⟨err, rest, hpre, hrest⟩ := catFilesFirst_eq h2
    refine ⟨err, rest ++ [Event.WriteJSON snapshot (E.WriteJSON snapshot)], ?_, ?_⟩
    · rw [h1, hpre]; simp
    · intro ev hev
      rcases List.mem_append.1 hev with hin | hin
      · exact hrest ev hin
      · simp at hin; rw [hin]; rfl
  · intro r s1 hrun
    obtain ⟨i, h1, -, h3, -, -, -, hro⟩ := getFilesReady_run hrun
    rw [← h1] at h3 hro
    refine ⟨h3, fun hr => (hro hr).2.2.1, ?_⟩
    intro hother
    rw [h1]
    exact polled_inv other (fun x => x.1.channel.Ports = c.channel.Ports)
      (fun i x hx => (hother i x).trans hx) (markNotSent ⟨c, fs, stdin, []⟩) rfl i


/-! ## Claims about `processReceivedFile` and `processFile` -/

/-- The body of `processReceivedFile`, when the hash it computes differs from
the announced one: it returns an error, `unzipFile` is not called and
`finishedHappy` is untouched. -/
theorem processReceivedFileBody_mismatch (E : Env) (c : Croc) (fs : FS) (stdin : Bytes)
    (tr : List Event) :
    wp (processReceivedFileBody E) (fun r s1 =>
      ∀ p h e, Event.hashFile p h e ∈ s1.trace.drop tr.length →
        h ≠ c.channel.fileMetaData.Hash →
        r = .error (e.getD
          ("hashes do not match, " ++ c.channel.fileMetaData.Hash ++ " != " ++ h)) ∧
        noUnzipFile (s1.trace.drop tr.length) = true ∧
        s1.c.channel.finishedHappy = c.channel.finishedHappy) ⟨c, fs, stdin, tr⟩ := by
  unfold processReceivedFileBody
  simp only [wp_getCroc]
  refine wp_catFiles ?_; rintro (_ | e) fs1 h1 <;>
    try simp only [wp_pure, wp_pure_bind, wp_check_none, wp_check_some, wp_getCroc, wp_modifyCroc,
        wp_modifyChannel, wp_modifyChannel_last, wp_goTask_last, wp_bind_assoc]
  on_goal 2 => (simp +contextual [noUnzipFile, Event.isUnzipFile] <;> simp_all)
  refine wp_tempFileName ?_; rintro name fs2 h2
  try simp only [wp_pure, wp_pure_bind, wp_check_none, wp_check_some, wp_getCroc, wp_modifyCroc,
      wp_modifyChannel, wp_modifyChannel_last, wp_goTask_last, wp_bind_assoc]
  refine wp_SessionKey ?_; rintro key (_ | e) h3 <;>
    try simp only [wp_pure, wp_pure_bind, wp_check_none, wp_check_some, wp_getCroc, wp_modifyCroc,
        wp_modifyChannel, wp_modifyChannel_last, wp_goTask_last, wp_bind_assoc]
  on_goal 2 => (simp +contextual [noUnzipFile, Event.isUnzipFile] <;> simp_all)
  rw [wp_ite]; constructor <;> intro hc <;>
    try simp only [wp_pure, wp_pure_bind, wp_check_none, wp_check_some, wp_getCroc, wp_modifyCroc,
        wp_modifyChannel, wp_modifyChannel_last, wp_goTask_last, wp_bind_assoc]
  · refine wp_decryptFile ?_; rintro (_ | e) fs3 h4 <;>
      try simp only [wp_pure, wp_pure_bind, wp_check_none, wp_check_some, wp_getCroc, wp_modifyCroc,
          wp_modifyChannel, wp_modifyChannel_last, wp_goTask_last, wp_bind_assoc]
    on_goal 2 => (simp +contextual [noUnzipFile, Event.isUnzipFile] <;> simp_all)
    refine wp_Remove ?_; rintro _ fs4 h5
    try simp only [wp_pure, wp_pure_bind, wp_check_none, wp_check_some, wp_getCroc, wp_modifyCroc,
        wp_modifyChannel, wp_modifyChannel_last, wp_goTask_last, wp_bind_assoc]
    refine wp_hashFile ?_; rintro hash (_ | e) h6 <;>
      try simp only [wp_pure, wp_pure_bind, wp_check_none, wp_check_some, wp_getCroc, wp_modifyCroc,
          wp_modifyChannel, wp_modifyChannel_last, wp_goTask_last, wp_bind_assoc]
    on_goal 2 => (simp +contextual [noUnzipFile, Event.isUnzipFile] <;> simp_all)
    rw [wp_ite]; constructor <;> intro hh <;>
      try simp only [wp_pure, wp_pure_bind, wp_check_none, wp_check_some, wp_getCroc, wp_modifyCroc,
          wp_modifyChannel, wp_modifyChannel_last, wp_goTask_last, wp_bind_assoc]
    on_goal 2 => (simp +contextual [noUnzipFile, Event.isUnzipFile] <;> simp_all)
    refine wp_unzipFile ?_; rintro (_ | e) fs5 h7 <;>
      try simp only [wp_pure, wp_pure_bind, wp_check_none, wp_check_some, wp_getCroc, wp_modifyCroc,
          wp_modifyChannel, wp_modifyChannel_last, wp_goTask_last, wp_bind_assoc]
    on_goal 2 => (simp +contextual [noUnzipFile, Event.isUnzipFile] <;> simp_all)
    refine wp_Remove ?_; rintro _ fs6 h8
    try simp only [wp_pure, wp_pure_bind, wp_check_none, wp_check_some, wp_getCroc, wp_modifyCroc,
        wp_modifyChannel, wp_modifyChannel_last, wp_goTask_last, wp_bind_assoc]
    (simp +contextual [noUnzipFile, Event.isUnzipFile] <;> simp_all)
  · refine wp_hashFile ?_; rintro hash (_ | e) h6 <;>
      try simp only [wp_pure, wp_pure_bind, wp_check_none, wp_check_some, wp_getCroc, wp_modifyCroc,
          wp_modifyChannel, wp_modifyChannel_last, wp_goTask_last, wp_bind_assoc]
    on_goal 2 => (simp +contextual [noUnzipFile, Event.isUnzipFile] <;> simp_all)
    rw [wp_ite]; constructor <;> intro hh <;>
      try simp only [wp_pure, wp_pure_bind, wp_check_none, wp_check_some, wp_getCroc, wp_modifyCroc,
          wp_modifyChannel, wp_modifyChannel_last, wp_goTask_last, wp_bind_assoc]
    on_goal 2 => (simp +contextual [noUnzipFile, Event.isUnzipFile] <;> simp_all)
    refine wp_unzipFile ?_; rintro (_ | e) fs5 h7 <;>
      try simp only [wp_pure, wp_pure_bind, wp_check_none, wp_check_some, wp_getCroc, wp_modifyCroc,
          wp_modifyChannel, wp_modifyChannel_last, wp_goTask_last, wp_bind_assoc]
    on_goal 2 => (simp +contextual [noUnzipFile, Event.isUnzipFile] <;> simp_all)
    refine wp_Remove ?_; rintro _ fs6 h8
    try simp only [wp_pure, wp_pure_bind, wp_check_none, wp_check_some, wp_getCroc, wp_modifyCroc,
        wp_modifyChannel, wp_modifyChannel_last, wp_goTask_last, wp_bind_assoc]
    (simp +contextual [noUnzipFile, Event.isUnzipFile] <;> simp_all)


theorem publishOnExit_finishedHappy (E : Env) (s : Sys) :
    (publishOnExit E s).2.c.channel.finishedHappy = s.c.channel.finishedHappy := by
  obtain ⟨c, fs, stdin, tr⟩ := s
  show wp (publishOnExit E) (fun _ s1 => s1.c.channel.finishedHappy = _) _
  unfold publishOnExit
  simp only [wp_modifyChannel]
  refine wp_WriteJSON ?_; rintro (_ | e) h <;> simp_all

/-- C2 (integrity detection): in a run of `processReceivedFile` that starts
with `finishedHappy = false` and in which `hashFile` returns a hash string
different from `fileMetaData.Hash`, the routine returns a non-nil error (the
error of `hashFile` if it returned one, otherwise "hashes do not match"),
`unzipFile` is never called, and `finishedHappy` is still false on return. -/
theorem processReceivedFile_integrity (E : Env) (c : Croc) (fs : FS) (stdin : Bytes)
    (h0 : c.channel.finishedHappy = false) (p h : String) (e : Option Error)
    (hin : Event.hashFile p h e ∈ (processReceivedFile E ⟨c, fs, stdin, []⟩).2.trace)
    (hne : h ≠ c.channel.fileMetaData.Hash) :
    (processReceivedFile E ⟨c, fs, stdin, []⟩).1 =
      .error (e.getD ("hashes do not match, " ++ c.channel.fileMetaData.Hash ++ " != " ++ h)) ∧
    (∀ ev ∈ (processReceivedFile E ⟨c, fs, stdin, []⟩).2.trace, ev.isUnzipFile = false) ∧
    (processReceivedFile E ⟨c, fs, stdin, []⟩).2.c.channel.finishedHappy = false := by
  have hb := (wp_iff _ _ _).1 (processReceivedFileBody_mismatch E
    { c with channel := { c.channel with FileReceived := true } } fs stdin [])
  have hp := publishOnExit_run E (processReceivedFileBody E
    ⟨{ c with channel := { c.channel with FileReceived := true } }, fs, stdin, []⟩).2
  have hf := publishOnExit_finishedHappy E (processReceivedFileBody E
    ⟨{ c with channel := { c.channel with FileReceived := true } }, fs, stdin, []⟩).2
  have htr : (processReceivedFile E ⟨c, fs, stdin, []⟩).2.trace = _ := hp.1
  rw [htr] at hin ⊢
  have hin1 : Event.hashFile p h e ∈ (processReceivedFileBody E
      ⟨{ c with channel := { c.channel with FileReceived := true } }, fs, stdin, []⟩).2.trace := by
    rcases List.mem_append.1 hin with hin | hin
    · exact hin
    · simp at hin
  obtain ⟨h1, h2, h3⟩ := hb p h e (by simpa using hin1) hne
  refine ⟨h1, ?_, ?_⟩
  · intro ev hev
    rcases List.mem_append.1 hev with hev | hev
    · have := List.all_eq_true.1 h2 ev (by simpa using hev)
      simpa using this
    · simp at hev; rw [hev]; rfl
  · exact hf.trans (h3.trans h0)

/-- A run of `processFile`: if it returns an error the metadata of the session
is untouched; if it returns no error every call it made succeeded, no
`WriteJSON` was made, and its last action is to start `showIntro` with the
metadata it has just stored. -/
theorem processFile_run (E : Env) (src : String) (c : Croc) (fs : FS) (stdin : Bytes)
    (tr : List Event) :
    wp (processFile E src) (fun r s1 => tr <+: s1.trace ∧
      (noWriteJSON (s1.trace.drop tr.length) = true ∧
        noRemove (s1.trace.drop tr.length) = true) ∧
      match r with
      | .error _ => s1.c.channel.fileMetaData = c.channel.fileMetaData
      | .ok _ =>
        allSucceeded (s1.trace.drop tr.length) = true ∧
        (s1.trace.drop tr.length).getLast? = some (Event.go
          (Task.showIntro s1.c.channel.codePhrase s1.c.channel.fileMetaData) s1.c.channel))
      ⟨c, fs, stdin, tr⟩ := by
  unfold processFile processFileSource
  simp only [wp_pure_bind, wp_bind_assoc]
  rw [wp_ite_bind]; constructor <;> intro hsrc <;>
    try simp only [wp_pure, wp_pure_bind, wp_check_none, wp_check_some, wp_getCroc, wp_modifyCroc,
        wp_modifyChannel, wp_modifyChannel_last, wp_goTask_last, wp_bind_assoc]
  · refine wp_TempFile ?_; rintro f (_ | e) fs1 h1 <;>
      try simp only [wp_pure, wp_pure_bind, wp_check_none, wp_check_some, wp_getCroc, wp_modifyCroc,
          wp_modifyChannel, wp_modifyChannel_last, wp_goTask_last, wp_bind_assoc]
    on_goal 2 => simp +contextual [noWriteJSON, noRemove, allSucceeded, Event.isWriteJSON, Event.isRemove,
      Event.err?]
    refine wp_Copy ?_; rintro (_ | e) fs2 h2 <;>
      try simp only [wp_pure, wp_pure_bind, wp_check_none, wp_check_some, wp_getCroc, wp_modifyCroc,
          wp_modifyChannel, wp_modifyChannel_last, wp_goTask_last, wp_bind_assoc]
    on_goal 2 => simp +contextual [noWriteJSON, noRemove, allSucceeded, Event.isWriteJSON, Event.isRemove,
      Event.err?]
    refine wp_Close ?_; rintro (_ | e) fs3 h3 <;>
      try simp only [wp_pure, wp_pure_bind, wp_check_none, wp_check_some, wp_getCroc, wp_modifyCroc,
          wp_modifyChannel, wp_modifyChannel_last, wp_goTask_last, wp_bind_assoc]
    on_goal 2 => simp +contextual [noWriteJSON, noRemove, allSucceeded, Event.isWriteJSON, Event.isRemove,
      Event.err?]
    refine wp_Stat ?_; rintro isDir (_ | e) h4 <;>
      try simp only [wp_pure, wp_pure_bind, wp_check_none, wp_check_some, wp_getCroc, wp_modifyCroc,
          wp_modifyChannel, wp_modifyChannel_last, wp_goTask_last, wp_bind_assoc]
    on_goal 2 => simp +contextual [noWriteJSON, noRemove, allSucceeded, Event.isWriteJSON, Event.isRemove,
      Event.err?]
    refine wp_zipFile ?_; rintro out (_ | e) fs4 h5 <;>
      try simp only [wp_pure, wp_pure_bind, wp_check_none, wp_check_some, wp_getCroc, wp_modifyCroc,
          wp_modifyChannel, wp_modifyChannel_last, wp_goTask_last, wp_bind_assoc]
    on_goal 2 => simp +contextual [noWriteJSON, noRemove, allSucceeded, Event.isWriteJSON, Event.isRemove,
      Event.err?]
    refine wp_hashFile ?_; rintro hash (_ | e) h6 <;>
      try simp only [wp_pure, wp_pure_bind, wp_check_none, wp_check_some, wp_getCroc, wp_modifyCroc,
          wp_modifyChannel, wp_modifyChannel_last, wp_goTask_last, wp_bind_assoc]
    on_goal 2 => simp +contextual [noWriteJSON, noRemove, allSucceeded, Event.isWriteJSON, Event.isRemove,
      Event.err?]
    refine wp_fileSize ?_; rintro size (_ | e) h7 <;>
      try simp only [wp_pure, wp_pure_bind, wp_check_none, wp_check_some, wp_getCroc, wp_modifyCroc,
          wp_modifyChannel, wp_modifyChannel_last, wp_goTask_last, wp_bind_assoc]
    on_goal 2 => simp +contextual [noWriteJSON, noRemove, allSucceeded, Event.isWriteJSON, Event.isRemove,
      Event.err?]
    simp +contextual [noWriteJSON, noRemove, allSucceeded, Event.isWriteJSON, Event.isRemove,
      Event.err?]
  · refine wp_exists_ ?_; rintro (_ | _) h1 <;>
      simp only [Bool.not_false, Bool.not_true, Bool.false_eq_true, eq_self_iff_true, ite_true,
        ite_false, wp_pure, wp_pure_bind, wp_check_none, wp_check_some, wp_getCroc, wp_modifyCroc,
          wp_modifyChannel, wp_modifyChannel_last, wp_goTask_last, wp_bind_assoc]
    on_goal 1 => simp +contextual [noWriteJSON, noRemove, allSucceeded, Event.isWriteJSON, Event.isRemove,
      Event.err?]
    refine wp_Stat ?_; rintro isDir (_ | e) h4 <;>
      try simp only [wp_pure, wp_pure_bind, wp_check_none, wp_check_some, wp_getCroc, wp_modifyCroc,
          wp_modifyChannel, wp_modifyChannel_last, wp_goTask_last, wp_bind_assoc]
    on_goal 2 => simp +contextual [noWriteJSON, noRemove, allSucceeded, Event.isWriteJSON, Event.isRemove,
      Event.err?]
    refine wp_zipFile ?_; rintro out (_ | e) fs4 h5 <;>
      try simp only [wp_pure, wp_pure_bind, wp_check_none, wp_check_some, wp_getCroc, wp_modifyCroc,
          wp_modifyChannel, wp_modifyChannel_last, wp_goTask_last, wp_bind_assoc]
    on_goal 2 => simp +contextual [noWriteJSON, noRemove, allSucceeded, Event.isWriteJSON, Event.isRemove,
      Event.err?]
    refine wp_hashFile ?_; rintro hash (_ | e) h6 <;>
      try simp only [wp_pure, wp_pure_bind, wp_check_none, wp_check_some, wp_getCroc, wp_modifyCroc,
          wp_modifyChannel, wp_modifyChannel_last, wp_goTask_last, wp_bind_assoc]
    on_goal 2 => simp +contextual [noWriteJSON, noRemove, allSucceeded, Event.isWriteJSON, Event.isRemove,
      Event.err?]
    refine wp_fileSize ?_; rintro size (_ | e) h7 <;>
      try simp only [wp_pure, wp_pure_bind, wp_check_none, wp_check_some, wp_getCroc, wp_modifyCroc,
          wp_modifyChannel, wp_modifyChannel_last, wp_goTask_last, wp_bind_assoc]
    on_goal 2 => simp +contextual [noWriteJSON, noRemove, allSucceeded, Event.isWriteJSON, Event.isRemove,
      Event.err?]
    simp +contextual [noWriteJSON, noRemove, allSucceeded, Event.isWriteJSON, Event.isRemove,
      Event.err?]


/-- C4 (no partial metadata): if `processFile` returns a non-nil error, the
session's `fileMetaData` equals its value before the call; if it returns no
error, every call it made succeeded and its last action, the start of
`showIntro`, comes with the metadata just stored: the metadata is written
only as the final step of a fully successful run. -/
theorem processFile_no_partial_metadata (E : Env) (src : String) (s : Sys) :
    (∀ e s1, processFile E src s = (.error e, s1) →
      s1.c.channel.fileMetaData = s.c.channel.fileMetaData) ∧
    (∀ s1, processFile E src s = (.ok (), s1) →
      ∃ pre, s1.trace = s.trace ++ pre ++ [Event.go
          (Task.showIntro s1.c.channel.codePhrase s1.c.channel.fileMetaData) s1.c.channel] ∧
        ∀ ev ∈ pre, ev.err? = none) := by
  obtain ⟨c, fs, stdin, tr⟩ := s
  have hw := (wp_iff _ _ _).1 (processFile_run E src c fs stdin tr)
  constructor
  · intro e s1 h
    rw [h] at hw
    exact hw.2.2
  · intro s1 h
    rw [h] at hw
    obtain ⟨h1, -, h3, h4⟩ := hw
    have happ := List.prefix_iff_eq_append.1 h1
    obtain ⟨pre, hpre⟩ := List.getLast?_eq_some_iff.1 h4
    refine ⟨pre, ?_, ?_⟩
    · rw [← happ, hpre, List.append_assoc]
    · intro ev hev
      have := List.all_eq_true.1 h3 ev (by rw [hpre]; exact List.mem_append_left _ hev)
      simpa using this


/-! ## Successful runs, call by call -/

/-- A run of `processFile` that returns no error: the archive `z` was written
by `zipFile`, its hash is the one stored in the metadata, and the metadata is
the one assembled from the calls.  For standard input, the name is that of
the temporary file, into which standard input was copied, and
`DeleteAfterSending` is set. -/
theorem processFile_ok (E : Env) (src : String) (c : Croc) (fs : FS) (stdin : Bytes)
    (tr : List Event) :
    wp (processFile E src) (fun r s1 => r = .ok () →
      ∃ name del isDir zp z fs0 hash size,
        E.zipFile fs0 zp c.UseCompression = ((z, none), s1.fs) ∧
        E.hashFile s1.fs z = (hash, none) ∧
        s1.c = { c with crocFile := z, channel := { c.channel with fileMetaData :=
          { Name := name, Size := size, Hash := hash, IsDir := isDir,
            IsCompressed := c.UseCompression, IsEncrypted := c.UseEncryption,
            DeleteAfterSending := del } } } ∧
        (src = "stdin" → del = true ∧ ∃ fs1 fs2,
          E.TempFile fs "." "croc-stdin-" = ((name, none), fs1) ∧
          E.Copy fs1 name stdin = (none, fs2) ∧ E.Close fs2 name = (none, fs0) ∧
          Event.TempFile "." "croc-stdin-" name none ∈ s1.trace.drop tr.length))
      ⟨c, fs, stdin, tr⟩ := by
  unfold processFile processFileSource
  simp only [wp_pure_bind, wp_bind_assoc]
  rw [wp_ite_bind]; constructor <;> intro hsrc <;>
    try simp only [wp_pure, wp_pure_bind, wp_check_none, wp_check_some, wp_getCroc, wp_modifyCroc,
        wp_modifyChannel, wp_modifyChannel_last, wp_goTask_last, wp_bind_assoc,
        Option.map_none', Option.map_some']
  · refine wp_TempFile ?_; rintro f (_ | e) fs1 h1 <;>
      try simp only [wp_pure, wp_pure_bind, wp_check_none, wp_check_some, wp_getCroc, wp_modifyCroc,
          wp_modifyChannel, wp_modifyChannel_last, wp_goTask_last, wp_bind_assoc,
          Option.map_none', Option.map_some']
    on_goal 2 => (intro h; cases h)
    refine wp_Copy ?_; rintro (_ | e) fs2 h2 <;>
      try simp only [wp_pure, wp_pure_bind, wp_check_none, wp_check_some, wp_getCroc, wp_modifyCroc,
          wp_modifyChannel, wp_modifyChannel_last, wp_goTask_last, wp_bind_assoc,
          Option.map_none', Option.map_some']
    on_goal 2 => (intro h; cases h)
    refine wp_Close ?_; rintro (_ | e) fs3 h3 <;>
      try simp only [wp_pure, wp_pure_bind, wp_check_none, wp_check_some, wp_getCroc, wp_modifyCroc,
          wp_modifyChannel, wp_modifyChannel_last, wp_goTask_last, wp_bind_assoc,
          Option.map_none', Option.map_some']
    on_goal 2 => (intro h; cases h)
    refine wp_Stat ?_; rintro isDir (_ | e) h4 <;>
      try simp only [wp_pure, wp_pure_bind, wp_check_none, wp_check_some, wp_getCroc, wp_modifyCroc,
          wp_modifyChannel, wp_modifyChannel_last, wp_goTask_last, wp_bind_assoc,
          Option.map_none', Option.map_some']
    on_goal 2 => (intro h; cases h)
    refine wp_zipFile ?_; rintro out (_ | e) fs4 h5 <;>
      try simp only [wp_pure, wp_pure_bind, wp_check_none, wp_check_some, wp_getCroc, wp_modifyCroc,
          wp_modifyChannel, wp_modifyChannel_last, wp_goTask_last, wp_bind_assoc,
          Option.map_none', Option.map_some']
    on_goal 2 => (intro h; cases h)
    refine wp_hashFile ?_; rintro hash (_ | e) h6 <;>
      try simp only [wp_pure, wp_pure_bind, wp_check_none, wp_check_some, wp_getCroc, wp_modifyCroc,
          wp_modifyChannel, wp_modifyChannel_last, wp_goTask_last, wp_bind_assoc,
          Option.map_none', Option.map_some']
    on_goal 2 => (intro h; cases h)
    refine wp_fileSize ?_; rintro size (_ | e) h7 <;>
      try simp only [wp_pure, wp_pure_bind, wp_check_none, wp_check_some, wp_getCroc, wp_modifyCroc,
          wp_modifyChannel, wp_modifyChannel_last, wp_goTask_last, wp_bind_assoc,
          Option.map_none', Option.map_some']
    on_goal 2 => (intro h; cases h)
    intro _
    refine ⟨_, _, _, _, _, _, _, _, h5, h6, rfl, fun _ => ⟨rfl, _, _, h1, h2, h3, ?_⟩⟩
    simp
  · refine wp_exists_ ?_; rintro (_ | _) h1 <;>
      simp only [Bool.not_false, Bool.not_true, Bool.false_eq_true, eq_self_iff_true, ite_true,
        ite_false, wp_pure, wp_pure_bind, wp_check_none, wp_check_some, wp_getCroc, wp_modifyCroc,
          wp_modifyChannel, wp_modifyChannel_last, wp_goTask_last, wp_bind_assoc,
          Option.map_none', Option.map_some']
    on_goal 1 => (intro h; cases h)
    refine wp_Stat ?_; rintro isDir (_ | e) h4 <;>
      try simp only [wp_pure, wp_pure_bind, wp_check_none, wp_check_some, wp_getCroc, wp_modifyCroc,
          wp_modifyChannel, wp_modifyChannel_last, wp_goTask_last, wp_bind_assoc,
          Option.map_none', Option.map_some']
    on_goal 2 => (intro h; cases h)
    refine wp_zipFile ?_; rintro out (_ | e) fs4 h5 <;>
      try simp only [wp_pure, wp_pure_bind, wp_check_none, wp_check_some, wp_getCroc, wp_modifyCroc,
          wp_modifyChannel, wp_modifyChannel_last, wp_goTask_last, wp_bind_assoc,
          Option.map_none', Option.map_some']
    on_goal 2 => (intro h; cases h)
    refine wp_hashFile ?_; rintro hash (_ | e) h6 <;>
      try simp only [wp_pure, wp_pure_bind, wp_check_none, wp_check_some, wp_getCroc, wp_modifyCroc,
          wp_modifyChannel, wp_modifyChannel_last, wp_goTask_last, wp_bind_assoc,
          Option.map_none', Option.map_some']
    on_goal 2 => (intro h; cases h)
    refine wp_fileSize ?_; rintro size (_ | e) h7 <;>
      try simp only [wp_pure, wp_pure_bind, wp_check_none, wp_check_some, wp_getCroc, wp_modifyCroc,
          wp_modifyChannel, wp_modifyChannel_last, wp_goTask_last, wp_bind_assoc,
          Option.map_none', Option.map_some']
    on_goal 2 => (intro h; cases h)
    intro _
    exact ⟨_, _, _, _, _, _, _, _, h5, h6, rfl, fun h => absurd h hsrc⟩


/-- The steps of `getFilesReady` after the polling loop, when they return no
error: the key, the file that was split (the encrypted copy of `c.crocFile`
when encryption is on, `c.crocFile` itself otherwise), the split into
`len(Ports)` pieces, the removal of the file that was split, the metadata that
was published, and the only two paths `os.Remove` was called on. -/
theorem getFilesReadyAfterWait_ok (E : Env) (c : Croc) (fs : FS) (stdin : Bytes)
    (tr : List Event) :
    wp (getFilesReadyAfterWait E) (fun r s2 => r = .ok () →
      ∃ key fsPre fsSplit,
        E.SessionKey c.channel.Pake = (key, none) ∧
        ((c.UseEncryption = true ∧ ∃ fs1 fs2,
            E.tempFileName fs "croc-encrypted" = (s2.c.crocFileEncrypted, fs1) ∧
            E.encryptFile fs1 c.crocFile s2.c.crocFileEncrypted key = (none, fs2) ∧
            E.Remove fs2 c.crocFile = (none, fsPre)) ∨
          (c.UseEncryption = false ∧ fsPre = fs ∧ s2.c.crocFileEncrypted = c.crocFile)) ∧
        E.splitFile fsPre s2.c.crocFileEncrypted c.channel.Ports.length = (none, fsSplit) ∧
        E.Remove fsSplit s2.c.crocFileEncrypted = (none, s2.fs) ∧
        s2.c.crocFile = c.crocFile ∧
        s2.c.channel.fileMetaData = { c.channel.fileMetaData with
          IsEncrypted := c.channel.fileMetaData.IsEncrypted || c.UseEncryption } ∧
        (∀ snapshot err, Event.WriteJSON snapshot err ∈ s2.trace.drop tr.length →
          snapshot.fileMetaData = s2.c.channel.fileMetaData) ∧
        (∀ p err, Event.Remove p err ∈ s2.trace.drop tr.length →
          p = c.crocFile ∨ p = s2.c.crocFileEncrypted))
      ⟨c, fs, stdin, tr⟩ := by
  unfold getFilesReadyAfterWait
  refine wp_SessionKey ?_; rintro key (_ | e) h1 <;>
    try simp only [wp_pure, wp_pure_bind, wp_check_none, wp_check_some, wp_getCroc, wp_modifyCroc,
        wp_modifyChannel, wp_modifyChannel_last, wp_goTask_last, wp_bind_assoc,
        Option.map_none', Option.map_some']
  on_goal 2 => (intro h; cases h)
  rw [wp_ite]; constructor <;> intro hc <;>
    try simp only [wp_pure, wp_pure_bind, wp_check_none, wp_check_some, wp_getCroc, wp_modifyCroc,
        wp_modifyChannel, wp_modifyChannel_last, wp_goTask_last, wp_bind_assoc,
        Option.map_none', Option.map_some']
  · refine wp_tempFileName ?_; rintro name fs1 h2
    try simp only [wp_pure, wp_pure_bind, wp_check_none, wp_check_some, wp_getCroc, wp_modifyCroc,
        wp_modifyChannel, wp_modifyChannel_last, wp_goTask_last, wp_bind_assoc,
        Option.map_none', Option.map_some']
    refine wp_encryptFile ?_; rintro (_ | e) fs2 h3 <;>
      try simp only [wp_pure, wp_pure_bind, wp_check_none, wp_check_some, wp_getCroc, wp_modifyCroc,
          wp_modifyChannel, wp_modifyChannel_last, wp_goTask_last, wp_bind_assoc,
          Option.map_none', Option.map_some']
    on_goal 2 => (intro h; cases h)
    refine wp_Remove ?_; rintro (_ | e) fs3 h4 <;>
      try simp only [wp_pure, wp_pure_bind, wp_check_none, wp_check_some, wp_getCroc, wp_modifyCroc,
          wp_modifyChannel, wp_modifyChannel_last, wp_goTask_last, wp_bind_assoc,
          Option.map_none', Option.map_some']
    on_goal 2 => (intro h; cases h)
    refine wp_splitFile ?_; rintro (_ | e) fs4 h5 <;>
      try simp only [wp_pure, wp_pure_bind, wp_check_none, wp_check_some, wp_getCroc, wp_modifyCroc,
          wp_modifyChannel, wp_modifyChannel_last, wp_goTask_last, wp_bind_assoc,
          Option.map_none', Option.map_some']
    on_goal 2 => (intro h; cases h)
    refine wp_Remove ?_; rintro (_ | e) fs5 h6 <;>
      try simp only [wp_pure, wp_pure_bind, wp_check_none, wp_check_some, wp_getCroc, wp_modifyCroc,
          wp_modifyChannel, wp_modifyChannel_last, wp_goTask_last, wp_bind_assoc,
          Option.map_none', Option.map_some']
    on_goal 2 => (intro h; cases h)
    refine wp_Marshal ?_; rintro bytes (_ | e) h7 <;>
      try simp only [wp_pure, wp_pure_bind, wp_check_none, wp_check_some, wp_getCroc, wp_modifyCroc,
          wp_modifyChannel, wp_modifyChannel_last, wp_goTask_last, wp_bind_assoc,
          Option.map_none', Option.map_some']
    on_goal 2 => (intro h; cases h)
    refine wp_WriteJSON ?_; rintro err h8
    try simp only [wp_pure, wp_pure_bind, wp_check_none, wp_check_some, wp_getCroc, wp_modifyCroc,
        wp_modifyChannel, wp_modifyChannel_last, wp_goTask_last, wp_bind_assoc,
        Option.map_none', Option.map_some']
    intro _
    refine ⟨key, _, _, h1, Or.inl ⟨hc, _, _, h2, h3, h4⟩, h5, h6, trivial, ?_, ?_, ?_⟩ <;> simp +contextual [hc]
    all_goals aesop
  · refine wp_splitFile ?_; rintro (_ | e) fs4 h5 <;>
      try simp only [wp_pure, wp_pure_bind, wp_check_none, wp_check_some, wp_getCroc, wp_modifyCroc,
          wp_modifyChannel, wp_modifyChannel_last, wp_goTask_last, wp_bind_assoc,
          Option.map_none', Option.map_some']
    on_goal 2 => (intro h; cases h)
    refine wp_Remove ?_; rintro (_ | e) fs5 h6 <;>
      try simp only [wp_pure, wp_pure_bind, wp_check_none, wp_check_some, wp_getCroc, wp_modifyCroc,
          wp_modifyChannel, wp_modifyChannel_last, wp_goTask_last, wp_bind_assoc,
          Option.map_none', Option.map_some']
    on_goal 2 => (intro h; cases h)
    refine wp_Marshal ?_; rintro bytes (_ | e) h7 <;>
      try simp only [wp_pure, wp_pure_bind, wp_check_none, wp_check_some, wp_getCroc, wp_modifyCroc,
          wp_modifyChannel, wp_modifyChannel_last, wp_goTask_last, wp_bind_assoc,
          Option.map_none', Option.map_some']
    on_goal 2 => (intro h; cases h)
    refine wp_WriteJSON ?_; rintro err h8
    try simp only [wp_pure, wp_pure_bind, wp_check_none, wp_check_some, wp_getCroc, wp_modifyCroc,
        wp_modifyChannel, wp_modifyChannel_last, wp_goTask_last, wp_bind_assoc,
        Option.map_none', Option.map_some']
    intro _
    refine ⟨key, _, _, h1, Or.inr ⟨by simpa using hc, rfl, trivial⟩, h5, h6, trivial, ?_, ?_, ?_⟩ <;> simp +contextual [hc]
    all_goals aesop


/-- The body of `processReceivedFile` in a run in which no call other than a
removal fails: the chunks were joined, the key obtained, the joined file
decrypted when the metadata says it is encrypted, and `file` hashed in the
file system `fsH`; if the hash is the announced one, the body returns no error,
`unzipFile` is called exactly once, on `file` with the content it has in `fsH`,
and `finishedHappy` is set; otherwise it returns an error. -/
theorem processReceivedFileBody_ok (E : Env) (c : Croc) (fs : FS) (stdin : Bytes)
    (tr : List Event) :
    wp (processReceivedFileBody E) (fun r s1 =>
      (∀ ev ∈ s1.trace.drop tr.length, ev.isRemove = false → ev.err? = none) →
      ∃ fs1 name fs2 key file fsH hash,
        E.catFiles fs (filesToCat c) c.crocFileEncrypted true = (none, fs1) ∧
        E.tempFileName fs1 "croc-unencrypted" = (name, fs2) ∧
        E.SessionKey c.channel.Pake = (key, none) ∧
        ((c.channel.fileMetaData.IsEncrypted = true ∧ file = name ∧ ∃ fs3 err,
            E.decryptFile fs2 c.crocFileEncrypted name key = (none, fs3) ∧
            E.Remove fs3 c.crocFileEncrypted = (err, fsH)) ∨
          (c.channel.fileMetaData.IsEncrypted = false ∧ file = c.crocFileEncrypted ∧
            fsH = fs2)) ∧
        E.hashFile fsH file = (hash, none) ∧
        (hash = c.channel.fileMetaData.Hash →
          r = .ok () ∧ s1.c.channel.finishedHappy = true ∧
          (s1.trace.drop tr.length).filter Event.isUnzipFile =
            [Event.unzipFile file "." (fsH.read file) none]) ∧
        (hash ≠ c.channel.fileMetaData.Hash → ∃ e, r = .error e))
      ⟨c, fs, stdin, tr⟩ := by
  unfold processReceivedFileBody
  simp only [wp_getCroc]
  refine wp_catFiles ?_; rintro (_ | e) fs1 h1 <;>
    try simp only [wp_pure, wp_pure_bind, wp_check_none, wp_check_some, wp_getCroc, wp_modifyCroc,
        wp_modifyChannel, wp_modifyChannel_last, wp_goTask_last, wp_bind_assoc,
        Option.map_none', Option.map_some']
  on_goal 2 => (intro hall; simp [Event.err?, Event.isRemove] at hall)
  refine wp_tempFileName ?_; rintro name fs2 h2
  try simp only [wp_pure, wp_pure_bind, wp_check_none, wp_check_some, wp_getCroc, wp_modifyCroc,
      wp_modifyChannel, wp_modifyChannel_last, wp_goTask_last, wp_bind_assoc,
      Option.map_none', Option.map_some']
  refine wp_SessionKey ?_; rintro key (_ | e) h3 <;>
    try simp only [wp_pure, wp_pure_bind, wp_check_none, wp_check_some, wp_getCroc, wp_modifyCroc,
        wp_modifyChannel, wp_modifyChannel_last, wp_goTask_last, wp_bind_assoc,
        Option.map_none', Option.map_some']
  on_goal 2 => (intro hall; simp [Event.err?, Event.isRemove] at hall)
  rw [wp_ite]; constructor <;> intro hc <;>
    try simp only [wp_pure, wp_pure_bind, wp_check_none, wp_check_some, wp_getCroc, wp_modifyCroc,
        wp_modifyChannel, wp_modifyChannel_last, wp_goTask_last, wp_bind_assoc,
        Option.map_none', Option.map_some']
  · refine wp_decryptFile ?_; rintro (_ | e) fs3 h4 <;>
      try simp only [wp_pure, wp_pure_bind, wp_check_none, wp_check_some, wp_getCroc, wp_modifyCroc,
          wp_modifyChannel, wp_modifyChannel_last, wp_goTask_last, wp_bind_assoc,
          Option.map_none', Option.map_some']
    on_goal 2 => (intro hall; simp [Event.err?, Event.isRemove] at hall)
    refine wp_Remove ?_; rintro err1 fs4 h5
    try simp only [wp_pure, wp_pure_bind, wp_check_none, wp_check_some, wp_getCroc, wp_modifyCroc,
        wp_modifyChannel, wp_modifyChannel_last, wp_goTask_last, wp_bind_assoc,
        Option.map_none', Option.map_some']
    refine wp_hashFile ?_; rintro hash (_ | e) h6 <;>
      try simp only [wp_pure, wp_pure_bind, wp_check_none, wp_check_some, wp_getCroc, wp_modifyCroc,
          wp_modifyChannel, wp_modifyChannel_last, wp_goTask_last, wp_bind_assoc,
          Option.map_none', Option.map_some']
    on_goal 2 => (intro hall; simp [Event.err?, Event.isRemove] at hall)
    rw [wp_ite]; constructor <;> intro hh <;>
      try simp only [wp_pure, wp_pure_bind, wp_check_none, wp_check_some, wp_getCroc, wp_modifyCroc,
          wp_modifyChannel, wp_modifyChannel_last, wp_goTask_last, wp_bind_assoc,
          Option.map_none', Option.map_some']
    on_goal 2 => (intro hall; refine ⟨_, _, _, key, _, _, hash, h1, h2, h3, Or.inl ⟨hc, rfl, _, _, h4, h5⟩, h6, ?_, ?_⟩ <;>
        simp_all [Event.isUnzipFile])
    refine wp_unzipFile ?_; rintro (_ | e) fs5 h7 <;>
      try simp only [wp_pure, wp_pure_bind, wp_check_none, wp_check_some, wp_getCroc, wp_modifyCroc,
          wp_modifyChannel, wp_modifyChannel_last, wp_goTask_last, wp_bind_assoc,
          Option.map_none', Option.map_some']
    on_goal 2 => (intro hall; simp [Event.err?, Event.isRemove] at hall)
    refine wp_Remove ?_; rintro err2 fs6 h8
    try simp only [wp_pure, wp_pure_bind, wp_check_none, wp_check_some, wp_getCroc, wp_modifyCroc,
        wp_modifyChannel, wp_modifyChannel_last, wp_goTask_last, wp_bind_assoc,
        Option.map_none', Option.map_some']
    intro hall
    refine ⟨_, _, _, key, _, _, hash, h1, h2, h3, Or.inl ⟨hc, rfl, _, _, h4, h5⟩, h6, ?_, ?_⟩ <;>
        simp_all [Event.isUnzipFile]
  · refine wp_hashFile ?_; rintro hash (_ | e) h6 <;>
      try simp only [wp_pure, wp_pure_bind, wp_check_none, wp_check_some, wp_getCroc, wp_modifyCroc,
          wp_modifyChannel, wp_modifyChannel_last, wp_goTask_last, wp_bind_assoc,
          Option.map_none', Option.map_some']
    on_goal 2 => (intro hall; simp [Event.err?, Event.isRemove] at hall)
    rw [wp_ite]; constructor <;> intro hh <;>
      try simp only [wp_pure, wp_pure_bind, wp_check_none, wp_check_some, wp_getCroc, wp_modifyCroc,
          wp_modifyChannel, wp_modifyChannel_last, wp_goTask_last, wp_bind_assoc,
          Option.map_none', Option.map_some']
    on_goal 2 => (intro hall; refine ⟨_, _, _, key, _, _, hash, h1, h2, h3, Or.inr ⟨by simpa using hc, rfl, rfl⟩, h6, ?_, ?_⟩ <;>
        simp_all [Event.isUnzipFile])
    refine wp_unzipFile ?_; rintro (_ | e) fs5 h7 <;>
      try simp only [wp_pure, wp_pure_bind, wp_check_none, wp_check_some, wp_getCroc, wp_modifyCroc,
          wp_modifyChannel, wp_modifyChannel_last, wp_goTask_last, wp_bind_assoc,
          Option.map_none', Option.map_some']
    on_goal 2 => (intro hall; simp [Event.err?, Event.isRemove] at hall)
    refine wp_Remove ?_; rintro err2 fs6 h8
    try simp only [wp_pure, wp_pure_bind, wp_check_none, wp_check_some, wp_getCroc, wp_modifyCroc,
        wp_modifyChannel, wp_modifyChannel_last, wp_goTask_last, wp_bind_assoc,
        Option.map_none', Option.map_some']
    intro hall
    refine ⟨_, _, _, key, _, _, hash, h1, h2, h3, Or.inr ⟨by simpa using hc, rfl, rfl⟩, h6, ?_, ?_⟩ <;>
        simp_all [Event.isUnzipFile]


/-! ## The round trip -/

theorem chunk_name_ne (p x : String) : p ++ "." ++ x ≠ p := by
  intro h
  have := congrArg String.length h
  have h1 : ".".length = 1 := rfl
  simp only [String.length_append, h1] at this
  omega

theorem wp_of_eq {α : Type} {m : Prog α} {Q : Except Error α → Sys → Prop} {s : Sys}
    {r : Except Error α} {s1 : Sys} (h : wp m Q s) (he : m s = (r, s1)) : Q r s1 := by
  unfold wp at h
  rw [he] at h
  exact h

theorem polled_idle (s : Sys) (i : Nat) : polled Interference.idle s i = s := by
  induction i with
  | zero => rfl
  | succ n ih =>
    show (polled Interference.idle s n).interfere Interference.idle n = s
    rw [ih]; rfl

/-- The sender's side of the round trip: what was split, what the receiver
needs to know of it, and what was published. -/
theorem sender_facts {E : Env} {K B : Bytes} {src : String} {fuel : Nat} {cS : Croc} {fsS : FS}
    {stdinS : Bytes} {s1 s2 : Sys}
    (hE : RoundTrip E K cS.channel.Ports.length)
    (hprocess : processFile E src ⟨cS, fsS, stdinS, []⟩ = (.ok (), s1))
    (hB : s1.fs.read s1.c.crocFile = some B)
    (hready : getFilesReady E Interference.idle fuel s1 = some (.ok (), s2))
    (hkeyS : E.SessionKey cS.channel.Pake = (K, none)) :
    ∃ fsPre fsSplit blob,
      E.splitFile fsPre s2.c.crocFileEncrypted cS.channel.Ports.length = (none, fsSplit) ∧
      fsPre.read s2.c.crocFileEncrypted = some blob ∧
      (∀ q, q ≠ s2.c.crocFileEncrypted → s2.fs.read q = fsSplit.read q) ∧
      E.hashFile s1.fs s1.c.crocFile = (s2.c.channel.fileMetaData.Hash, none) ∧
      s2.c.channel.fileMetaData.IsEncrypted = cS.UseEncryption ∧
      (∀ snapshot err, Event.WriteJSON snapshot err ∈ s2.trace →
        snapshot.fileMetaData = s2.c.channel.fileMetaData) ∧
      ((cS.UseEncryption = true ∧ ∀ fsR i o fsR1, FS.read fsR i = some blob →
          E.decryptFile fsR i o K = (none, fsR1) → FS.read fsR1 o = some B) ∨
        (cS.UseEncryption = false ∧ blob = B)) := by
  -- processFile
  obtain ⟨name, del, isDir, zp, z, fs0, hash, size, -, hhash, hc1, -⟩ :=
    wp_of_eq (processFile_ok E src cS fsS stdinS []) hprocess rfl
  obtain ⟨-, ⟨hnoW, -⟩, -⟩ := wp_of_eq (processFile_run E src cS fsS stdinS []) hprocess
  -- getFilesReady
  obtain ⟨i, -, -, -, hrun⟩ := getFilesReady_some hready
  rw [polled_idle] at hrun
  obtain ⟨c1, fs1, stdin1, tr1⟩ := s1
  simp only at hc1 hhash hB hnoW
  obtain ⟨key, fsPre, fsSplit, hkey, hbranch, hsplit, hrem, hcf, hmd, hpub, -⟩ :=
    wp_of_eq (getFilesReadyAfterWait_ok E
      { c1 with channel := { c1.channel with notSentMetaData := true } } fs1 stdin1 tr1)
      hrun.symm rfl
  obtain ⟨hpre, -⟩ := wp_of_eq (getFilesReadyAfterWait_run E
      { c1 with channel := { c1.channel with notSentMetaData := true } } fs1 stdin1 tr1)
      hrun.symm
  subst hc1
  simp only at hkey hbranch hsplit hrem hcf hmd hB hhash
  rw [hkeyS] at hkey
  obtain rfl : K = key := by cases hkey; rfl
  have hframe := hE.remove_frame _ _ _ _ hrem
  have hpubAll : ∀ snapshot err, Event.WriteJSON snapshot err ∈ s2.trace →
      snapshot.fileMetaData = s2.c.channel.fileMetaData := by
    intro snapshot err hin
    rw [← List.prefix_iff_eq_append.1 hpre] at hin
    rcases List.mem_append.1 hin with hin | hin
    · have := List.all_eq_true.1 hnoW _ (by simpa using hin)
      simp [Event.isWriteJSON] at this
    · exact hpub snapshot err hin
  have hmdE : s2.c.channel.fileMetaData.IsEncrypted = cS.UseEncryption := by
    rw [hmd]; simp
  have hhash2 : E.hashFile fs1 z = (s2.c.channel.fileMetaData.Hash, none) := by
    rw [hmd]; exact hhash
  rcases hbranch with ⟨henc, fsa, fsb, htemp, hencrypt, hremz⟩ | ⟨henc, hfs, hpath⟩
  · obtain ⟨hfresh, hkeep⟩ := hE.temp_fresh _ _ _ _ htemp
    have hne : z ≠ s2.c.crocFileEncrypted := by
      intro h; rw [← h, hB] at hfresh; cases hfresh
    obtain ⟨ct, hct, hdec⟩ := hE.decrypt_encrypt _ _ _ _ B
      ((hkeep z hne).trans hB) hencrypt
    refine ⟨fsPre, fsSplit, ct, hsplit, ?_, hframe, hhash2, hmdE, hpubAll,
      Or.inl ⟨henc, hdec⟩⟩
    rw [hE.remove_frame _ _ _ _ hremz _ (Ne.symm hne)]
    exact hct
  · subst hfs
    refine ⟨fsPre, fsSplit, B, hsplit, ?_, hframe, hhash2, hmdE, hpubAll, Or.inr ⟨henc, rfl⟩⟩
    rw [hpath]; exact hB

/-- C1 (end-to-end round trip): the sender runs `processFile` and then
`getFilesReady`, both without error, on an archive of content `B`, with either
encryption setting and `N >= 1` ports; joining the chunks inverts splitting,
`decryptFile` with `K` inverts `encryptFile` with `K`, `hashFile` depends only
on content, both sides' `SessionKey` returns `K`, the receiver holds the
sender's chunk `i` as `crocFileEncrypted.i` and the metadata the sender
published, and no file-system or unzip call of the receiver fails.  Then
`processReceivedFile` returns no error, `unzipFile` is called exactly once, on
a file whose content is `B`, and `finishedHappy` is true. -/
theorem round_trip (E : Env) (K B : Bytes) (src : String) (fuel : Nat)
    (cS : Croc) (fsS : FS) (stdinS : Bytes) (s1 s2 : Sys)
    (cR : Croc) (fsR : FS) (stdinR : Bytes) (snapshot : channelData) (errW : Option Error)
    (hN : 1 ≤ cS.channel.Ports.length)
    (hE : RoundTrip E K cS.channel.Ports.length)
    (hprocess : processFile E src ⟨cS, fsS, stdinS, []⟩ = (.ok (), s1))
    (hB : s1.fs.read s1.c.crocFile = some B)
    (hready : getFilesReady E Interference.idle fuel s1 = some (.ok (), s2))
    (hkeyS : E.SessionKey cS.channel.Pake = (K, none))
    (hkeyR : E.SessionKey cR.channel.Pake = (K, none))
    (hports : cR.channel.Ports.length = cS.channel.Ports.length)
    (hpub : Event.WriteJSON snapshot errW ∈ s2.trace)
    (hmeta : cR.channel.fileMetaData = snapshot.fileMetaData)
    (hchunks : ∀ i, i < cS.channel.Ports.length →
      fsR.read (cR.crocFileEncrypted ++ "." ++ toString i) =
        s2.fs.read (s2.c.crocFileEncrypted ++ "." ++ toString i))
    (hnofail : ∀ ev ∈ (processReceivedFile E ⟨cR, fsR, stdinR, []⟩).2.trace,
      ev.isRemove = false → ev.isWriteJSON = false → ev.err? = none) :
    (processReceivedFile E ⟨cR, fsR, stdinR, []⟩).1 = .ok () ∧
    (∃ p, (processReceivedFile E ⟨cR, fsR, stdinR, []⟩).2.trace.filter Event.isUnzipFile =
      [Event.unzipFile p "." (some B) none]) ∧
    (processReceivedFile E ⟨cR, fsR, stdinR, []⟩).2.c.channel.finishedHappy = true := by
  obtain ⟨fsPre, fsSplit, blob, hsplit, hblob, hframe, hhash, hmdE, hpubAll, hbranch⟩ :=
    sender_facts hE hprocess hB hready hkeyS
  have hmeta2 : cR.channel.fileMetaData = s2.c.channel.fileMetaData :=
    hmeta.trans (hpubAll snapshot errW hpub)
  -- the receiver's run
  let sR : Sys := ⟨{ cR with channel := { cR.channel with FileReceived := true } }, fsR, stdinR, []⟩
  have hp := publishOnExit_run E (processReceivedFileBody E sR).2
  have hf := publishOnExit_finishedHappy E (processReceivedFileBody E sR).2
  have htr : (processReceivedFile E ⟨cR, fsR, stdinR, []⟩).2.trace =
      (processReceivedFileBody E sR).2.trace ++ [_] := hp.1
  have hbody := (wp_iff _ _ _).1 (processReceivedFileBody_ok E
    { cR with channel := { cR.channel with FileReceived := true } } fsR stdinR [])
  have hall : ∀ ev ∈ (processReceivedFileBody E sR).2.trace, ev.isRemove = false →
      ev.err? = none := by
    intro ev hev hr
    have hin : ev ∈ (processReceivedFile E ⟨cR, fsR, stdinR, []⟩).2.trace := by
      rw [htr]; exact List.mem_append_left _ hev
    refine hnofail ev hin hr ?_
    obtain ⟨-, -, hnoW, -⟩ := (wp_iff _ _ _).1 (processReceivedFileBody_trace E
      { cR with channel := { cR.channel with FileReceived := true } } fsR stdinR [])
    have := List.all_eq_true.1 hnoW ev (by simpa using hev)
    simpa using this
  obtain ⟨fs1, name, fs2, key, file, fsH, hash, hcat, htemp, hkey, hdec, hhashR, hok, -⟩ :=
    hbody (by simpa using hall)
  simp only at hkey hdec hok
  rw [hkeyR] at hkey
  obtain rfl : K = key := by cases hkey; rfl
  -- the joined file is the file that was split
  have hjoin : fs1.read cR.crocFileEncrypted = some blob := by
    have := hE.split_cat hN fsPre _ fsSplit fsR cR.crocFileEncrypted fs1 hsplit
      (fun i hi => (hchunks i hi).trans (hframe _ (chunk_name_ne _ _)))
      (by rw [← hports]; exact hcat)
    rw [this, hblob]
  obtain ⟨hfresh, hkeep⟩ := hE.temp_fresh _ _ _ _ htemp
  have hne : cR.crocFileEncrypted ≠ name := by
    intro h; rw [← h, hjoin] at hfresh; cases hfresh
  -- the file that is hashed has content `B`
  have hfile : fsH.read file = some B := by
    rcases hdec with ⟨hisenc, rfl, fs3, err, hd, hrem⟩ | ⟨hisenc, rfl, rfl⟩
    · rcases hbranch with ⟨-, hinv⟩ | ⟨hoff, -⟩
      · rw [hE.remove_frame _ _ _ _ hrem _ (Ne.symm hne)]
        exact hinv _ _ _ _ ((hkeep _ hne).trans hjoin) hd
      · rw [hmeta2, hmdE, hoff] at hisenc; cases hisenc
    · rcases hbranch with ⟨hon, -⟩ | ⟨-, rfl⟩
      · rw [hmeta2, hmdE, hon] at hisenc; cases hisenc
      · exact (hkeep _ hne).trans hjoin
  have hhashEq : hash = cR.channel.fileMetaData.Hash := by
    have := hE.hash_content fsH file s1.fs s1.c.crocFile (hfile.trans hB.symm)
    rw [hhashR, hhash] at this
    rw [hmeta2]
    exact (Prod.mk.inj this).1
  obtain ⟨hres, hhappy, hunzip⟩ := hok hhashEq
  refine ⟨hres, ⟨file, ?_⟩, hf.trans hhappy⟩
  rw [htr, List.filter_append, ← hfile]
  simp only [List.length_nil, List.drop_zero] at hunzip
  rw [hunzip]
  rfl


/-! ## The reference environment meets the assumptions -/

namespace Model

theorem find_filter_ne (fs : FS) (p q : String) (h : q ≠ p) :
    (fs.filter fun e => e.1 != p).find? (fun e => e.1 == q) = fs.find? fun e => e.1 == q := by
  rw [List.find?_filter]
  congr 1
  funext e
  by_cases hq : e.1 = q
  · have : e.1 ≠ p := fun h1 => h (hq ▸ h1)
    simp [hq, h]
  · simp [hq]

theorem read_write_same (fs : FS) (p : String) (b : Bytes) : FS.read (write fs p b) p = some b := by
  simp [FS.read, write]

theorem read_write_ne (fs : FS) (p q : String) (b : Bytes) (h : q ≠ p) :
    FS.read (write fs p b) q = FS.read fs q := by
  simp only [FS.read, write]
  rw [List.find?_cons_of_neg, find_filter_ne fs p q h]
  simpa using Ne.symm h

theorem read_erase_ne (fs : FS) (p q : String) (h : q ≠ p) :
    FS.read (erase fs p) q = FS.read fs q := by
  simp only [FS.read, erase]
  rw [find_filter_ne fs p q h]

theorem length_le_maxLen (fs : FS) (e : String × Bytes) (h : e ∈ fs) : e.1.length ≤ maxLen fs := by
  induction fs with
  | nil => cases h
  | cons a rest ih =>
    simp only [maxLen, List.map_cons, List.foldr_cons]
    rcases List.mem_cons.1 h with rfl | h
    · exact Nat.le_max_left _ _
    · exact le_trans (ih h) (Nat.le_max_right _ _)

theorem read_fresh (fs : FS) (pfx : String) : FS.read fs (fresh fs pfx) = none := by
  simp only [FS.read, Option.map_eq_none', List.find?_eq_none]
  intro e he heq
  have h1 := length_le_maxLen fs e he
  have h2 : e.1 = fresh fs pfx := by simpa using heq
  have h3 : (fresh fs pfx).length = pfx.length + (maxLen fs + 1) := by
    simp only [fresh, String.length_append, String.length_mk, List.length_replicate]
  rw [h2, h3] at h1
  omega

theorem read_some_ne_fresh (fs : FS) (pfx q : String) (b : Bytes) (h : FS.read fs q = some b) :
    q ≠ fresh fs pfx := by
  intro hq
  rw [hq, read_fresh] at h
  cases h

theorem decipher_cipher (key b : Bytes) : decipher key (cipher key b) = some b := by
  simp [decipher, cipher, List.map_map, Function.comp_def]

end Model

namespace Model

theorem append_left_cancel (a b c : String) (h : a ++ b = a ++ c) : b = c := by
  have := String.ext_iff.1 h
  simp only [String.data_append, List.append_cancel_left_eq] at this
  exact String.ext this

theorem chunk0_ne_chunk1 (p : String) : p ++ "." ++ toString 0 ≠ p ++ "." ++ toString 1 := by
  intro h
  have h1 := append_left_cancel (p ++ ".") _ _ h
  revert h1
  decide

theorem take_append_drop_two (b : Bytes) (sz : Nat) :
    (chunks sz 2 b).flatten = b := by
  simp [chunks]

/-- The reference environment meets the assumptions of the round trip, for
two chunks. -/
theorem roundTrip (K : Bytes) : RoundTrip env K 2 where
  split_cat := by
    intro _ fsS path fsS1 fsR p fsR1 hsplit hchunks hcat
    simp only [env, splitFile] at hsplit
    cases hb : FS.read fsS path with
    | none => rw [hb] at hsplit; cases hsplit
    | some b =>
      rw [hb] at hsplit
      simp only [OfNat.ofNat_ne_zero, if_false, chunks, writeChunks, Prod.mk.injEq,
        true_and] at hsplit
      subst hsplit
      have h0 := hchunks 0 (by decide)
      have h1 := hchunks 1 (by decide)
      rw [read_write_ne _ _ _ _ (chunk0_ne_chunk1 path), read_write_same] at h0
      rw [read_write_same] at h1
      have hrange : (List.range 2).map (fun i => p ++ "." ++ toString i) =
          [p ++ "." ++ toString 0, p ++ "." ++ toString 1] := rfl
      rw [hrange] at hcat
      simp only [env, catFiles, readAll, h0, h1] at hcat
      simp only [Prod.mk.injEq, true_and] at hcat
      subst hcat
      rw [read_write_same]
      simp
  decrypt_encrypt := by
    intro fsS src dst fsS1 b hb henc
    simp only [env, encryptFile, hb, Prod.mk.injEq, true_and] at henc
    subst henc
    refine ⟨cipher K b, read_write_same _ _ _, ?_⟩
    intro fsR i o fsR1 hi hdec
    simp only [env, decryptFile, hi, decipher_cipher, Prod.mk.injEq, true_and] at hdec
    subst hdec
    exact read_write_same _ _ _
  hash_content := by
    intro fs p fs1 p1 h
    simp only [env, hashFile, h]
  temp_fresh := by
    intro fs pfx name fs1 h
    simp only [env, tempFileName, Prod.mk.injEq] at h
    obtain ⟨rfl, rfl⟩ := h
    exact ⟨read_fresh _ _, fun _ _ => rfl⟩
  remove_frame := by
    intro fs p err fs1 h q hq
    simp only [env, Remove] at h
    split at h
    · cases h; exact read_erase_ne _ _ _ hq
    · cases h; rfl

end Model


namespace Model

theorem read_writeChunks (p q : String) (h : q.length ≤ p.length) (cs : List Bytes) :
    ∀ (i : Nat) (fs : FS), FS.read (writeChunks p i cs fs) q = FS.read fs q := by
  induction cs with
  | nil => intro i fs; rfl
  | cons b bs ih =>
    intro i fs
    simp only [writeChunks]
    rw [ih, read_write_ne]
    intro hq
    have := congrArg String.length hq
    have h1 : ".".length = 1 := rfl
    simp only [String.length_append, h1] at this
    omega

/-- The reference environment keeps a file `t` through `processFile("stdin")`
and `getFilesReady`, when the file that is split has another name, at least as
long as that of `t`. -/
theorem keepsFile (t : String) (b : Bytes) (x : String) (hx : x ≠ t)
    (hlen : t.length ≤ x.length) : KeepsFile env t b x where
  copy := by
    intro fs fs1 h
    simp only [env, Copy] at h
    split at h
    · cases h; exact read_write_same _ _ _
    · cases h
  close := by
    intro fs name fs1 h ht
    simp only [env, Close, Prod.mk.injEq, true_and] at h
    rw [← h]; exact ht
  zip := by
    intro fs p cmp z fs1 h ht
    simp only [env, zipFile] at h
    split at h
    · cases h
    · cases h
      rw [read_write_ne _ _ _ _ (read_some_ne_fresh _ _ _ _ ht)]
      exact ht
  temp := by
    intro fs pfx name fs1 h ht
    simp only [env, tempFileName, Prod.mk.injEq] at h
    rw [← h.2]; exact ht
  encrypt := by
    intro fs src key fs1 h ht
    simp only [env, encryptFile] at h
    split at h
    · cases h
    · cases h
      rw [read_write_ne _ _ _ _ (Ne.symm hx)]
      exact ht
  split := by
    intro fs n fs1 h ht
    simp only [env, splitFile] at h
    split at h
    · cases h
    · split at h
      · cases h
      · cases h
        rw [read_writeChunks _ _ hlen]
        exact ht
  remove := by
    intro fs p fs1 hp h ht
    simp only [env, Remove] at h
    split at h
    · cases h
      rw [read_erase_ne _ _ _ (Ne.symm hp)]
      exact ht
    · cases h

end Model

/-! ## Standard input -/

/-- C9, amended (standard-input cleanup): after `processFile("stdin")`
succeeds and `getFilesReady` returns without error, the published metadata
names the temporary file created for standard input and carries
`DeleteAfterSending = true`, and the only paths `os.Remove` was called on are
`c.crocFile` and `c.crocFileEncrypted`: neither routine removes the temporary
file.  When the collaborators leave that file alone and it is neither the
archive nor the file that was split, it still exists, with the bytes read from
standard input. -/
theorem stdin_temp_file_kept (E : Env) (input : Bytes) (fuel : Nat) (c : Croc) (fs : FS)
    (s1 s2 : Sys)
    (hprocess : processFile E "stdin" ⟨c, fs, input, []⟩ = (.ok (), s1))
    (hready : getFilesReady E Interference.idle fuel s1 = some (.ok (), s2)) :
    Event.TempFile "." "croc-stdin-" s2.c.channel.fileMetaData.Name none ∈ s1.trace ∧
    s2.c.channel.fileMetaData.DeleteAfterSending = true ∧
    (∀ snapshot err, Event.WriteJSON snapshot err ∈ s2.trace →
      snapshot.fileMetaData = s2.c.channel.fileMetaData) ∧
    (∀ p err, Event.Remove p err ∈ s2.trace → p = s1.c.crocFile ∨ p = s2.c.crocFileEncrypted) ∧
    (KeepsFile E s2.c.channel.fileMetaData.Name input s2.c.crocFileEncrypted →
      s1.c.crocFile ≠ s2.c.channel.fileMetaData.Name →
      s2.c.crocFileEncrypted ≠ s2.c.channel.fileMetaData.Name →
      s2.fs.read s2.c.channel.fileMetaData.Name = some input) := by
  obtain ⟨name, del, isDir, zp, z, fs0, hash, size, hzip, -, hc1, hstdin⟩ :=
    wp_of_eq (processFile_ok E "stdin" c fs input []) hprocess rfl
  obtain ⟨rfl, fsa, fsb, htemp, hcopy, hclose, hin⟩ := hstdin rfl
  obtain ⟨-, ⟨hnoW, hnoR⟩, -⟩ := wp_of_eq (processFile_run E "stdin" c fs input []) hprocess
  obtain ⟨i, -, -, -, hrun⟩ := getFilesReady_some hready
  rw [polled_idle] at hrun
  obtain ⟨c1, fs1, stdin1, tr1⟩ := s1
  simp only at hc1 hzip hin hnoW hnoR
  obtain ⟨key, fsPre, fsSplit, hkey, hbranch, hsplit, hrem, hcf, hmd, hpub, hremoves⟩ :=
    wp_of_eq (getFilesReadyAfterWait_ok E
      { c1 with channel := { c1.channel with notSentMetaData := true } } fs1 stdin1 tr1)
      hrun.symm rfl
  obtain ⟨hpre, -⟩ := wp_of_eq (getFilesReadyAfterWait_run E
      { c1 with channel := { c1.channel with notSentMetaData := true } } fs1 stdin1 tr1)
      hrun.symm
  subst hc1
  simp only at hkey hbranch hsplit hrem hcf hmd hremoves hpub
  have hname : s2.c.channel.fileMetaData.Name = name := by rw [hmd]
  have happ := List.prefix_iff_eq_append.1 hpre
  refine ⟨?_, by rw [hmd], ?_, ?_, ?_⟩
  · rw [hname]; simpa using hin
  · intro snapshot err hmem
    rw [← happ] at hmem
    rcases List.mem_append.1 hmem with hmem | hmem
    · have := List.all_eq_true.1 hnoW _ (by simpa using hmem)
      simp [Event.isWriteJSON] at this
    · exact hpub snapshot err hmem
  · intro p err hmem
    rw [← happ] at hmem
    rcases List.mem_append.1 hmem with hmem | hmem
    · have := List.all_eq_true.1 hnoR _ (by simpa using hmem)
      simp [Event.isRemove] at this
    · exact hremoves p err hmem
  · rw [hname]
    intro hk hz hx
    have h1 := hk.copy _ _ hcopy
    have h2 := hk.close _ _ _ hclose h1
    have h3 := hk.zip _ _ _ _ _ hzip h2
    rcases hbranch with ⟨-, fsc, fsd, ht, he, hr⟩ | ⟨-, rfl, -⟩
    · have h4 := hk.temp _ _ _ _ ht h3
      have h5 := hk.encrypt _ _ _ _ he h4
      have h6 := hk.remove _ _ _ hz hr h5
      have h7 := hk.split _ _ _ hsplit h6
      exact hk.remove _ _ _ hx hrem h7
    · have h7 := hk.split _ _ _ hsplit h3
      exact hk.remove _ _ _ hx hrem h7

/-! ## The claims on concrete runs -/

section witnesses
open Scenario

/-- C1 on a concrete run: the receiver of `notes.txt`, sent encrypted over two
ports, returns no error, hands `unzipFile` a file whose content is the archive,
and ends with `finishedHappy = true`. -/
theorem round_trip_witness :
    (processReceivedFile Model.env ⟨receiver, receiverDisk, [], []⟩).1 = .ok () ∧
    (∃ p, (processReceivedFile Model.env ⟨receiver, receiverDisk, [], []⟩).2.trace.filter
      Event.isUnzipFile = [Event.unzipFile p "." (some archive) none]) ∧
    (processReceivedFile Model.env ⟨receiver, receiverDisk, [], []⟩).2.c.channel.finishedHappy
      = true :=
  round_trip Model.env [1, 2] archive "notes.txt" 1 sender.c sender.fs [] afterProcess afterReady
    receiver receiverDisk [] published none (by decide!) (Model.roundTrip _) (by decide!)
    (by decide!) (by decide!) (by decide!) (by decide!) (by decide!) (by decide!) (by decide!)
    (by decide!) (by decide!)

/-- C2 on a concrete run: with an altered chunk the receiver computes the hash
`49911`, not the announced `49944`, and fails without calling `unzipFile`. -/
theorem processReceivedFile_integrity_witness :
    receiver.channel.finishedHappy = false ∧
    Event.hashFile "croc-unencrypted00000000000000" "49911" none ∈
      (processReceivedFile Model.env ⟨receiver, tamperedDisk, [], []⟩).2.trace ∧
    "49911" ≠ receiver.channel.fileMetaData.Hash ∧
    (processReceivedFile Model.env ⟨receiver, tamperedDisk, [], []⟩).1 =
      .error ((none : Option Error).getD
        ("hashes do not match, " ++ receiver.channel.fileMetaData.Hash ++ " != " ++ "49911")) ∧
    (∀ ev ∈ (processReceivedFile Model.env ⟨receiver, tamperedDisk, [], []⟩).2.trace,
      ev.isUnzipFile = false) ∧
    (processReceivedFile Model.env ⟨receiver, tamperedDisk, [], []⟩).2.c.channel.finishedHappy
      = false :=
  ⟨by decide!, by decide!, by decide!,
    processReceivedFile_integrity Model.env receiver tamperedDisk [] (by decide!)
      "croc-unencrypted00000000000000" "49911" none (by decide!) (by decide!)⟩

/-- C3 on a concrete run: the failing run with the altered chunk still ends
with its one `WriteJSON` call. -/
theorem processReceivedFile_publish_on_exit_witness :
    ∃ pre snapshot err,
      (processReceivedFile Model.env ⟨receiver, tamperedDisk, [], []⟩).2.trace =
        [] ++ pre ++ [Event.WriteJSON snapshot err] ∧
      (∀ ev ∈ pre, ev.isWriteJSON = false) ∧
      snapshot.FileReceived = true ∧ snapshot.Update = true :=
  processReceivedFile_publish_on_exit Model.env ⟨receiver, tamperedDisk, [], []⟩

/-- C4 on concrete runs: `processFile` on a missing file returns an error and
leaves the metadata as it was; on `notes.txt` it returns no error and ends by
starting `showIntro` with the new metadata. -/
theorem processFile_no_partial_metadata_witness :
    (processFile Model.env "missing" sender).2.c.channel.fileMetaData =
      sender.c.channel.fileMetaData ∧
    ∃ pre, afterProcess.trace = sender.trace ++ pre ++ [Event.go
        (Task.showIntro afterProcess.c.channel.codePhrase afterProcess.c.channel.fileMetaData)
        afterProcess.c.channel] ∧
      ∀ ev ∈ pre, ev.err? = none :=
  ⟨(processFile_no_partial_metadata Model.env "missing" sender).1
      "file/folder \x27missing\x27 does not exist" (processFile Model.env "missing" sender).2
      (by decide!),
    (processFile_no_partial_metadata Model.env "notes.txt" sender).2 afterProcess (by decide!)⟩

/-- C5 on concrete runs: the receiver's second chunk name, and the sender's
one `splitFile` call, into as many pieces as there are ports. -/
theorem chunk_join_order_witness :
    (filesToCat receiver)[1]? = some (receiver.crocFileEncrypted ++ "." ++ toString 1) ∧
    ready.trace.filter Event.isSplitFile =
      [Event.splitFile ready.c.crocFileEncrypted ready.c.channel.Ports.length none] :=
  ⟨(chunk_join_order Model.env Interference.idle 1 receiver receiverDisk []).2.2.1 1 (by decide!),
    ((chunk_join_order Model.env Interference.idle 1 prepared.c prepared.fs []).2.2.2
      (.ok ()) ready (by decide!)).2.1 rfl⟩

/-- C6 on a concrete run: `getFilesReady` returns with `fileReady` still false
and its calls end with `WriteJSON` followed by the start of the goroutine. -/
theorem getFilesReady_snapshot_before_fileReady_witness :
    prepared.c.channel.fileReady = false ∧
    getFilesReady Model.env Interference.idle 1 ⟨prepared.c, prepared.fs, [], []⟩ =
      some (.ok (), ready) ∧
    ready.c.channel.fileReady = false ∧
    (∃ pre snapshot err now, ready.trace =
      pre ++ [Event.WriteJSON snapshot err, Event.go Task.setFileReady now]) ∧
    (Task.setFileReady.run ready.c).channel.fileReady = true :=
  ⟨by decide!, by decide!,
    (getFilesReady_snapshot_before_fileReady Model.env Interference.idle 1 prepared.c prepared.fs
      [] (.ok ()) ready (by decide!) (fun _ _ h => h) (by decide!)).2.1,
    (getFilesReady_snapshot_before_fileReady Model.env Interference.idle 1 prepared.c prepared.fs
      [] (.ok ()) ready (by decide!) (fun _ _ h => h) (by decide!)).2.2.2.1 rfl,
    (getFilesReady_snapshot_before_fileReady Model.env Interference.idle 1 prepared.c prepared.fs
      [] (.ok ()) ready (by decide!) (fun _ _ h => h) (by decide!)).2.2.2.2⟩

/-- C7 on concrete runs: before `processFile` the metadata has no name and
`getFilesReady` does not leave the loop; after it, it does at the first poll. -/
theorem getFilesReady_never_proceeds_with_empty_metadata_witness :
    getFilesReady Model.env Interference.idle 5 sender = none ∧
    (getFilesReady Model.env Interference.idle 1 prepared).isSome = true :=
  ⟨(getFilesReady_never_proceeds_with_empty_metadata Model.env Interference.idle 5 sender).2.1
      (fun i => by rw [polled_idle]; rfl),
    (getFilesReady_never_proceeds_with_empty_metadata Model.env Interference.idle 1
      prepared).2.2 0 (by decide!) (by decide!)⟩

/-- C8 on a concrete run: when the key exchange has not finished, `SessionKey`
fails, `getFilesReady` returns that error, and nothing is published. -/
theorem getFilesReady_aborts_on_first_failure_witness :
    getFilesReady Model.env Interference.idle 1 ⟨noKey, prepared.fs, [], []⟩ =
      some (.error "KeyExchangeIncomplete", noKeyReady) ∧
    Event.SessionKey [] (some "KeyExchangeIncomplete") ∈ noKeyReady.trace ∧
    (∃ pre, noKeyReady.trace = pre ++ [Event.SessionKey [] (some "KeyExchangeIncomplete")] ∧
      ∀ x ∈ pre, x.err? = none) ∧
    (∀ x ∈ noKeyReady.trace, x.isWriteJSON = false ∧ x.isGo = false) ∧
    noKeyReady.c.channel.EncryptedFileMetaData = noKey.channel.EncryptedFileMetaData :=
  ⟨by decide!, by decide!,
    (getFilesReady_aborts_on_first_failure Model.env Interference.idle 1 noKey prepared.fs []
      (.error "KeyExchangeIncomplete") noKeyReady (fun _ _ => rfl) (by decide!)
      (Event.SessionKey [] (some "KeyExchangeIncomplete")) "KeyExchangeIncomplete"
      (by decide!) rfl rfl).2⟩

/-- C9, the claim as stated fails: `processFile("stdin")` succeeds on the
input `hello`, creating the temporary file `croc-stdin-0` and publishing
metadata with `DeleteAfterSending = true`; `getFilesReady` then returns without
error; and the temporary file still exists, with the bytes `hello`. -/
theorem stdin_temp_file_remains :
    (processFile Model.env "stdin" stdinSender).1 = .ok () ∧
    Event.TempFile "." "croc-stdin-" "croc-stdin-0" none ∈ stdinProcessed.trace ∧
    stdinProcessed.c.channel.fileMetaData.DeleteAfterSending = true ∧
    getFilesReady Model.env Interference.idle 1 stdinProcessed = some (.ok (), stdinReady) ∧
    stdinReady.fs.read "croc-stdin-0" = some hello := by
  decide!

/-- C9, amended, on the same run: the temporary file is kept. -/
theorem stdin_temp_file_kept_witness :
    Event.TempFile "." "croc-stdin-" stdinReady.c.channel.fileMetaData.Name none ∈
      stdinProcessed.trace ∧
    stdinReady.c.channel.fileMetaData.DeleteAfterSending = true ∧
    stdinReady.fs.read stdinReady.c.channel.fileMetaData.Name = some hello :=
  ⟨(stdin_temp_file_kept Model.env hello 1 stdinSender.c stdinSender.fs stdinProcessed stdinReady
      (by decide!) (by decide!)).1,
    (stdin_temp_file_kept Model.env hello 1 stdinSender.c stdinSender.fs stdinProcessed stdinReady
      (by decide!) (by decide!)).2.1,
    (stdin_temp_file_kept Model.env hello 1 stdinSender.c stdinSender.fs stdinProcessed stdinReady
      (by decide!) (by decide!)).2.2.2.2
      (Model.keepsFile _ _ _ (by decide!) (by decide!)) (by decide!) (by decide!)⟩

/-- C10 on concrete runs: with the synchronization channel down, the receiver
returns with `Update = true`, and `getFilesReady` with `Update = false`. -/
theorem update_flag_after_publish_witness :
    (processReceivedFile Model.envOffline ⟨receiver, receiverDisk, [], []⟩).2.c.channel.Update
      = true ∧
    Event.WriteJSON published (some "websocket: close sent") ∈ readyOffline.trace ∧
    readyOffline.c.channel.Update = false :=
  ⟨by
      obtain ⟨pre, snapshot, err, h1, -, -, h4⟩ :=
        (update_flag_after_publish Model.envOffline Interference.idle 1 receiver receiverDisk
          []).1
      have herr : err = some "websocket: close sent" := by
        have h2 : (processReceivedFile Model.envOffline
            ⟨receiver, receiverDisk, [], []⟩).2.trace.getLast?.map Event.err? =
            some (some "websocket: close sent") := by decide!
        rw [h1] at h2
        simpa [Event.err?] using h2
      exact h4 _ herr,
    by decide!,
    (update_flag_after_publish Model.envOffline Interference.idle 1 prepared.c prepared.fs []).2
      (.ok ()) readyOffline (by decide!) published (some "websocket: close sent") (by decide!)⟩

end witnesses

end Files
